import Mathlib

/-!
# Domain builder (`tools/internal/xi_build.c`)

A shallow embedding of the Xen domain builder: the kernel-header reader, the
frame access helpers, `setup_guestos` (image load, page-table construction,
update batch) and the command-line assembly of `main`.

Machine integers are natural numbers reduced modulo `2 ^ 32` (`unsigned long`
and `size_t` of the two-level, 1024-entries-per-table x86 target the file is
written for) and `Int` for `int` and `long`.  The source does not test the index of a
read of `page_array`: a read outside the array yields whatever the memory
holds there (`Env.stray`) and the run goes on.  A read past a string
terminator ends a run with `Status.fault`.
-/

namespace XiBuild

/-! ## Machine words -/

/-- Number of values of an `unsigned long` / `size_t`. -/
def WORD : Nat := 4294967296

/-- Reduction of an arithmetic result to `unsigned long`. -/
def wrap (x : Nat) : Nat := x % WORD

/-- Conversion of an `unsigned long` to `int` / `long` (two's complement). -/
def to_int (x : Nat) : Int :=
  if x % WORD < 2147483648 then ((x % WORD : Nat) : Int) else ((x % WORD : Nat) : Int) - (WORD : Int)

/-- Conversion of an `int` / `long` to `unsigned long`. -/
def of_int (x : Int) : Nat := (x % (WORD : Int)).toNat

/-- The C expression `a - b` on `unsigned long`, for `b` at most `WORD`. -/
def usub (a b : Nat) : Nat := wrap (if b ≤ a then a - b else a + WORD - b)

/-- Reduction of an `int` / `long` result to 32 bits (two's complement). -/
def wrap_int (x : Int) : Int := to_int (of_int x)

/-! ## Constants of the missing headers -/

/-- Modelled from the spec: `mem_defs.h` is not in the source tree; the page
shift of the two-level x86 layout the builder assumes (`PAGE_SHIFT - 10`,
`1024` entries per table in the source). -/
def PAGE_SHIFT : Nat := 12

/-- Modelled from the spec: `mem_defs.h` is not in the source tree; one page
is `1 << PAGE_SHIFT` = 4096 bytes. -/
def PAGE_SIZE : Nat := 4096

/-- Modelled from the spec: `mem_defs.h` is not in the source tree; a leaf
table has 1024 entries (the source divides by the literal 1024). -/
def ENTRIES_PER_L1_PAGETABLE : Nat := 1024

/-- Modelled from the spec: `mem_defs.h` is not in the source tree; shift of
the root-table index of a virtual address. -/
def L2_PAGETABLE_SHIFT : Nat := 22

/-- Modelled from the spec: `mem_defs.h` is not in the source tree; size in
bytes of `l1_pgentry_t`. -/
def SIZEOF_L1_PGENTRY : Nat := 4

/-- Modelled from the spec: `mem_defs.h` is not in the source tree; size in
bytes of `l2_pgentry_t`. -/
def SIZEOF_L2_PGENTRY : Nat := 4

/-- Size in bytes of `unsigned long` on the 32-bit target. -/
def SIZEOF_ULONG : Nat := 4

/-- Modelled from the spec: `mem_defs.h` is not in the source tree; the
"present" flag of a page-table entry. -/
def _PAGE_PRESENT : Nat := 0x001

/-- Modelled from the spec: `mem_defs.h` is not in the source tree; the
"writable" flag of a page-table entry. -/
def _PAGE_RW : Nat := 0x002

/-- Modelled from the spec: `mem_defs.h` is not in the source tree; the
"user-accessible" flag of a page-table entry. -/
def _PAGE_USER : Nat := 0x004

/-- Modelled from the spec: `mem_defs.h` is not in the source tree; the
"accessed" flag of a page-table entry. -/
def _PAGE_ACCESSED : Nat := 0x020

/-- Modelled from the spec: `mem_defs.h` is not in the source tree; the
"dirty" flag of a page-table entry. -/
def _PAGE_DIRTY : Nat := 0x040

/-- Modelled from the spec: the hypervisor interface header is not in the
source tree; tag (low two bits of `ptr`) of a physical-to-machine update. -/
def PGREQ_MPT_UPDATE : Nat := 1

/-- Modelled from the spec: the hypervisor interface header is not in the
source tree; tag (low two bits of `ptr`) of an extended command. -/
def PGREQ_EXTENDED_COMMAND : Nat := 2

/-- Modelled from the spec: the hypervisor interface header is not in the
source tree; extended command "pin as root table". -/
def PGEXT_PIN_L2_TABLE : Nat := 1

/-- The `L1_PROT` of the source. -/
def L1_PROT : Nat := _PAGE_PRESENT ||| _PAGE_RW ||| _PAGE_ACCESSED

/-- The `L2_PROT` of the source. -/
def L2_PROT : Nat :=
  _PAGE_PRESENT ||| _PAGE_RW ||| _PAGE_ACCESSED ||| _PAGE_DIRTY ||| _PAGE_USER

/-- Length of the signature `GUEST_SIG`. -/
def SIG_LEN : Nat := 8

/-- The signature `"XenoGues"` as bytes. -/
def GUEST_SIG : List Nat := [88, 101, 110, 111, 71, 117, 101, 115]

/-- Modelled from the spec: `mem_defs.h` is not in the source tree; index of
a virtual address in its leaf table. -/
def l1_table_offset (a : Nat) : Nat :=
  (a >>> PAGE_SHIFT) &&& (ENTRIES_PER_L1_PAGETABLE - 1)

/-- Modelled from the spec: `mem_defs.h` is not in the source tree; index of
a virtual address in the root table. -/
def l2_table_offset (a : Nat) : Nat := a >>> L2_PAGETABLE_SHIFT

/-- The C expression `x << PAGE_SHIFT` on `unsigned long`. -/
def shl_page (x : Nat) : Nat := wrap (x <<< PAGE_SHIFT)

/-- The C expression `~_PAGE_RW` converted to `unsigned long`, `0xFFFFFFFD`. -/
def NOT_PAGE_RW : Nat := 4294967293

/-! ## Data -/

/-- One page-table update request. -/
structure page_update_request_t where
  ptr : Nat
  val : Nat
deriving DecidableEq, Repr

/-- The statement of `setup_guestos` that wrote a request, with the value of
the loop variable `count` at that moment. -/
inductive Site where
  | pin
  | l2 (count : Nat)
  | l1 (count : Nat)
  | mpt (count : Nat)
deriving DecidableEq, Repr

/-- A request of the update array together with the statement that wrote it. -/
structure Emitted where
  site : Site
  req : page_update_request_t
deriving DecidableEq, Repr

/-- The fields of `dom_meminfo_t` that `setup_guestos` writes. -/
structure dom_meminfo_t where
  l2_pgt_addr : Nat
  virt_shinfo_addr : Nat
  virt_startinfo_addr : Nat
  virt_mod_addr : Nat
  virt_mod_len : Nat
deriving DecidableEq, Repr

/-- Effects on guest frames and on the hypervisor, in program order. -/
inductive Effect where
  | map_failed (pfn : Nat)
  | zeroed (pfn : Nat)
  | copied (pfn : Nat) (data : List Nat)
  | pt_update (reqs : List page_update_request_t) (nr_updates : Int) (ok : Bool)
  | build_domain (cmd_line : List Char)
deriving DecidableEq, Repr

/-- What the builder cannot decide itself: results of system calls and of
hypervisor calls, and the contents of the image files. -/
structure Env where
  /-- `open("/dev/mem")` succeeds. -/
  devmem_ok : Bool
  /-- Both `malloc` calls of `setup_guestos` succeed. -/
  malloc_ok : Bool
  /-- Frame list written by `DOM0_GETMEMLIST`; `none` when the call fails. -/
  pfn_list : Option (List Nat)
  /-- Whether the `n`-th `mmap` of the run, on frame `pfn`, succeeds. -/
  map_ok : Nat → Nat → Bool
  /-- Size reported by `fstat` on the ramdisk; `none` when it fails. -/
  initrd_stat : Option Nat
  /-- Whether `mlock` of the request array succeeds. -/
  pt_mlock_ok : Bool
  /-- Result of the page-table update hypercall. -/
  pt_update_ok : Bool
  /-- The word that a read of `page_array[i]` yields for an index `i` outside
  the array. -/
  stray : Int → Nat

/-- The observable world: the effects so far and the number of `mmap` calls. -/
structure World where
  trace : List Effect
  nmaps : Nat
deriving DecidableEq, Repr

/-- How a run ends: `ok` is `return 0`, `error_out` is `return -1`, `fault`
is a read past the terminator of a string, `out_of_fuel` an unfinished loop. -/
inductive Status where
  | ok
  | error_out
  | fault
  | out_of_fuel
deriving DecidableEq, Repr

/-! ## Frame access layer -/

/-- The function `map_pfn`: `true` when the frame was mapped. -/
def map_pfn (env : Env) (w : World) (pfn : Nat) : Bool × World :=
  if env.map_ok w.nmaps pfn then
    (true, { w with nmaps := w.nmaps + 1 })
  else
    (false, { trace := w.trace ++ [Effect.map_failed pfn], nmaps := w.nmaps + 1 })

/-- The function `clear_domain_page`: returns `0` or `-1`. -/
def clear_domain_page (env : Env) (w : World) (pfn : Nat) : Int × World :=
  match map_pfn env w pfn with
  | (false, w1) => (-1, w1)
  | (true, w1) => (0, { w1 with trace := w1.trace ++ [Effect.zeroed pfn] })

/-- The function `copy_to_domain_page`: returns `0` or `-1`.  `src_page` is
the part of the page buffer that was filled by the preceding `read`. -/
def copy_to_domain_page (env : Env) (w : World) (dst_pfn : Nat) (src_page : List Nat) :
    Int × World :=
  match map_pfn env w dst_pfn with
  | (false, w1) => (-1, w1)
  | (true, w1) => (0, { w1 with trace := w1.trace ++ [Effect.copied dst_pfn src_page] })

/-- The function `send_pgupdates`: returns `0` or `-1`.  `updates` is what
the request array holds, `nr_updates` the count handed to the hypervisor. -/
def send_pgupdates (env : Env) (w : World) (updates : List page_update_request_t)
    (nr_updates : Int) : Int × World :=
  if ¬ env.pt_mlock_ok then (-1, w)
  else
    ((if env.pt_update_ok then 0 else -1),
     { w with trace := w.trace ++ [Effect.pt_update updates nr_updates env.pt_update_ok] })

/-- The function `get_pfn_list`: the return value (`-1` or the number of
frames) and the frames the hypervisor wrote to the buffer, at most
`max_pfns` of them. -/
def get_pfn_list (env : Env) (max_pfns : Nat) : Int × List Nat :=
  match env.pfn_list with
  | none => (-1, [])
  | some l => (((l.take max_pfns).length : Nat), l.take max_pfns)

/-- An array read `page_array[i]` with an `int` or `unsigned long` index.  The
source has no bounds test: outside the array the read yields `env.stray i`. -/
def page_at (env : Env) (page_array : List Nat) (i : Int) : Nat :=
  if 0 ≤ i ∧ i.toNat < page_array.length then page_array.getD i.toNat 0 else env.stray i

/-! ## The kernel header -/

/-- The three `return -1` of `read_kernel_header`, by the message printed. -/
inductive HeaderError where
  | stat_failed
  | too_large
  | bad_signature
deriving DecidableEq, Repr

/-- What `read_kernel_header` stores through its pointers, and the unread
rest of the image. -/
structure Header where
  load_addr : Nat
  ksize : Nat
  rest : List Nat
deriving DecidableEq, Repr

/-- Little-endian value of a list of bytes. -/
def le_bytes : List Nat → Nat
  | [] => 0
  | b :: bs => b + 256 * le_bytes bs

/-- A buffer of `n` bytes holding `old` after a `read` stored `got` at its
start. -/
def fill_buffer (n : Nat) (old got : List Nat) : List Nat :=
  (got ++ old.drop got.length).take n

/-- The function `read_kernel_header`.  `st_size` is the size `fstat`
reports (`none` when it fails), `file` the bytes of the image, `dom_size` the
domain size in kilobytes, and `sig_old`, `addr_old` the previous contents of
`signature` and of `*load_addr`. -/
def read_kernel_header (st_size : Option Int) (file : List Nat) (dom_size : Int)
    (sig_old addr_old : List Nat) : Except HeaderError Header :=
  match st_size with
  | none => .error .stat_failed
  | some size =>
    if wrap_int (size * 2) > wrap_int (dom_size * 1024) then .error .too_large
    else
      let signature := fill_buffer SIG_LEN sig_old (file.take SIG_LEN)
      if signature ≠ GUEST_SIG then .error .bad_signature
      else
        let rest := file.drop SIG_LEN
        let load_addr := le_bytes (fill_buffer SIZEOF_ULONG addr_old (rest.take SIZEOF_ULONG))
        .ok { load_addr := load_addr,
              ksize := of_int (size - (SIG_LEN : Int) - (SIZEOF_ULONG : Int)),
              rest := rest.drop SIZEOF_ULONG }

/-! ## `setup_guestos` -/

/-- State of the two image-loading loops: the byte offset `i`, the unread
bytes of the stream, the world, and the calls of `copy_to_domain_page` so
far, each as the index into `page_array` and the bytes read into the page
buffer. -/
structure LoadState where
  i : Nat
  stream : List Nat
  w : World
  copies : List (Nat × List Nat)
deriving DecidableEq, Repr

/-- The two copy loops of `setup_guestos`, `for ( i = 0; i < ksize; i +=
PAGE_SIZE )` for the kernel and `for ( j = 0; j < isize; j += PAGE_SIZE, i +=
PAGE_SIZE )` for the ramdisk: `len` is `ksize` or `isize`, `j` the offset in
the image (for the kernel `j` and `i` are the same variable).  The return
value of `copy_to_domain_page` is not looked at, as in the source. -/
def load_loop (env : Env) (page_array : List Nat) (len : Nat) :
    Nat → Nat → LoadState → Status × LoadState
  | 0, _, s => (.out_of_fuel, s)
  | fuel + 1, j, s =>
    if j < len then
      let size := if len - j < PAGE_SIZE then len - j else PAGE_SIZE
      let page := s.stream.take size
      if page.length ≠ size then
        (.error_out, { s with stream := s.stream.drop size })
      else
        let pfn := page_at env page_array ((s.i >>> PAGE_SHIFT : Nat) : Int)
        load_loop env page_array len fuel (wrap (j + PAGE_SIZE))
          { i := wrap (s.i + PAGE_SIZE),
            stream := s.stream.drop size,
            w := (copy_to_domain_page env s.w pfn page).2,
            copies := s.copies ++ [(s.i >>> PAGE_SHIFT, page)] }
    else (.ok, s)

/-- State of the page-table construction: the cursors `l1tab`, `l2tab` and
`alloc_index`, the request array written so far with the counter
`num_pgt_updates`, the world, and the values of `alloc_index` at which a
table frame was taken. -/
structure PtState where
  l1tab : Nat
  l2tab : Nat
  alloc_index : Int
  updates : List Emitted
  num_pgt_updates : Nat
  w : World
  table_idx : List Int
deriving DecidableEq, Repr

/-- The value of `num_pt_pages` after `num_pt_pages++`. -/
def num_pt_pages (tot_pages virt_load_addr : Nat) : Int :=
  to_int (wrap (l1_table_offset virt_load_addr + tot_pages + 1024) / 1024) + 1

/-- The value of `pt_start`. -/
def pt_start (tot_pages virt_load_addr : Nat) : Nat :=
  of_int ((tot_pages : Int) - num_pt_pages tot_pages virt_load_addr)

/-- The block `if ( !((unsigned long)l1tab & (PAGE_SIZE-1)) )` of the loop:
take a frame for a new leaf table and enter it in the page directory. -/
def new_l1 (env : Env) (page_array : List Nat) (virt_load_addr count : Nat) (s : PtState) :
    Status × PtState :=
  if s.l1tab &&& (PAGE_SIZE - 1) = 0 then
    let pfn := page_at env page_array s.alloc_index
    let r := clear_domain_page env s.w pfn
    if r.1 < 0 then (.error_out, { s with w := r.2 })
    else
      let l1tab := wrap (shl_page pfn +
        l1_table_offset (wrap (virt_load_addr + shl_page count)) * SIZEOF_L1_PGENTRY)
      (.ok, { l1tab := l1tab,
              l2tab := wrap (s.l2tab + SIZEOF_L2_PGENTRY),
              alloc_index := s.alloc_index - 1,
              updates := s.updates ++ [⟨.l2 count, ⟨s.l2tab, l1tab ||| L2_PROT⟩⟩],
              num_pgt_updates := wrap (s.num_pgt_updates + 1),
              w := r.2,
              table_idx := s.table_idx ++ [s.alloc_index] })
  else (.ok, s)

/-- The value of the leaf entry for page `count` with frame `pfn`. -/
def l1_val (pt_start count pfn : Nat) : Nat :=
  if count < pt_start then shl_page pfn ||| L1_PROT
  else (shl_page pfn ||| L1_PROT) &&& NOT_PAGE_RW

/-- The loop `for ( count = 0; count < (tot_pages + 1); count++ )` that
initialises the page tables. -/
def pt_loop (env : Env) (page_array : List Nat) (tot_pages virt_load_addr pt_start : Nat) :
    Nat → Nat → PtState → Status × PtState
  | 0, _, s => (.out_of_fuel, s)
  | fuel + 1, count, s =>
    if count < wrap (tot_pages + 1) then
      match new_l1 env page_array virt_load_addr count s with
      | (.ok, s1) =>
        if count = tot_pages then (.ok, s1)
        else
          let pfn := page_at env page_array (count : Int)
          pt_loop env page_array tot_pages virt_load_addr pt_start fuel (count + 1)
            { s1 with
              l1tab := wrap (s1.l1tab + SIZEOF_L1_PGENTRY),
              updates := s1.updates ++
                [⟨.l1 count, ⟨s1.l1tab, l1_val pt_start count pfn⟩⟩,
                 ⟨.mpt count, ⟨shl_page pfn ||| PGREQ_MPT_UPDATE, count⟩⟩],
              num_pgt_updates := wrap (wrap (s1.num_pgt_updates + 1) + 1) }
      | r => r
    else (.ok, s)

/-- Everything a run of `setup_guestos` leaves behind. -/
structure Run where
  status : Status
  meminfo : dom_meminfo_t
  updates : List Emitted
  num_pgt_updates : Nat
  alloc_index : Int
  w : World
  copies : List (Nat × List Nat)
  table_idx : List Int
deriving DecidableEq, Repr

/-- The `meminfo` after `memset(meminfo, 0, sizeof(*meminfo))`. -/
def meminfo_zero : dom_meminfo_t :=
  { l2_pgt_addr := 0, virt_shinfo_addr := 0, virt_startinfo_addr := 0,
    virt_mod_addr := 0, virt_mod_len := 0 }

/-- A run that ends at `error_out` before the page tables. -/
def Run.early (st : Status) (m : dom_meminfo_t) (w : World) (d : List (Nat × List Nat)) : Run :=
  { status := st, meminfo := m, updates := [], num_pgt_updates := 0, alloc_index := 0, w := w,
    copies := d, table_idx := [] }

/-- The ramdisk part of `setup_guestos` (the block `if ( initrd_fd >= 0 )`):
the size check, the module fields of `meminfo`, and the copy loop. -/
def load_initrd (env : Env) (page_array : List Nat) (initrd : Option (List Nat))
    (tot_pages virt_load_addr ksize : Nat) (k : LoadState) :
    Status × dom_meminfo_t × LoadState :=
  match initrd with
  | none => (.ok, meminfo_zero, k)
  | some bytes =>
    match env.initrd_stat with
    | none => (.error_out, meminfo_zero, k)
    | some isize =>
      if wrap (wrap (isize + ksize) * 2) > shl_page tot_pages then
        (.error_out, meminfo_zero, k)
      else
        let mod_addr := wrap (virt_load_addr + k.i)
        let m := { meminfo_zero with virt_mod_addr := mod_addr, virt_mod_len := isize }
        let r := load_loop env page_array isize (bytes.length + 1) 0 { k with stream := bytes }
        (r.1, m, r.2)

/-- Lines 235 to 329 of `setup_guestos`: the table-page budget, the page
directory, the loop, the start-info address and the submission. -/
def build_tables (env : Env) (page_array : List Nat) (tot_pages virt_load_addr : Nat)
    (m : dom_meminfo_t) (k : LoadState) : Run :=
  let alloc_index := to_int (usub tot_pages 1)
  let pfn := page_at env page_array alloc_index
  let l2tab := shl_page pfn
  let r := clear_domain_page env k.w pfn
  if r.1 < 0 then Run.early .error_out m r.2 k.copies
  else
    let shinfo := wrap (virt_load_addr + shl_page tot_pages)
    let m1 := { m with l2_pgt_addr := l2tab, virt_shinfo_addr := shinfo }
    let s0 : PtState :=
      { l1tab := 0,
        l2tab := wrap (l2tab + l2_table_offset virt_load_addr * SIZEOF_L2_PGENTRY),
        alloc_index := alloc_index - 1,
        updates := [⟨.pin, ⟨l2tab ||| PGREQ_EXTENDED_COMMAND, PGEXT_PIN_L2_TABLE⟩⟩],
        num_pgt_updates := 1,
        w := r.2,
        table_idx := [alloc_index] }
    match pt_loop env page_array tot_pages virt_load_addr
        (pt_start tot_pages virt_load_addr) (tot_pages + 2) 0 s0 with
    | (.ok, s) =>
      let startinfo := wrap (virt_load_addr + of_int ((s.alloc_index - 1) * 4096))
      let m2 := { m1 with virt_startinfo_addr := startinfo }
      let sent := send_pgupdates env s.w (s.updates.map Emitted.req)
        (to_int s.num_pgt_updates)
      { status := if sent.1 < 0 then .error_out else .ok,
        meminfo := m2, updates := s.updates, num_pgt_updates := s.num_pgt_updates,
        alloc_index := s.alloc_index,
        w := sent.2, copies := k.copies, table_idx := s.table_idx }
    | (st, s) =>
      { status := st, meminfo := m1, updates := s.updates,
        num_pgt_updates := s.num_pgt_updates, alloc_index := s.alloc_index,
        w := s.w, copies := k.copies, table_idx := s.table_idx }

/-- The function `setup_guestos`.  `kernel` is the unread part of
`kernel_fd`; `initrd` is `none` when `initrd_fd < 0` and the bytes of the
ramdisk otherwise. -/
def setup_guestos (env : Env) (kernel : List Nat) (initrd : Option (List Nat))
    (tot_pages virt_load_addr ksize : Nat) (w0 : World) : Run :=
  if ¬ env.devmem_ok then Run.early .error_out meminfo_zero w0 []
  else if ¬ env.malloc_ok then Run.early .error_out meminfo_zero w0 []
  else
    let got := get_pfn_list env tot_pages
    if of_int got.1 ≠ tot_pages then Run.early .error_out meminfo_zero w0 []
    else
      let page_array := got.2
      match load_loop env page_array ksize (kernel.length + 1) 0
          { i := 0, stream := kernel, w := w0, copies := [] } with
      | (.ok, k) =>
        match load_initrd env page_array initrd tot_pages virt_load_addr ksize k with
        | (.ok, m, k2) => build_tables env page_array tot_pages virt_load_addr m k2
        | (st, m, k2) => Run.early st m k2.w k2.copies
      | (st, k) => Run.early st meminfo_zero k.w k.copies

/-! ## `main` -/

/-- What `main` cannot decide itself: the hypervisor's answers, the files. -/
structure Sys where
  /-- Environment of `setup_guestos`. -/
  env : Env
  /-- Answer to `DOM0_GETDOMAININFO`: `tot_pages`, or `none` when it fails. -/
  tot_pages : Option Nat
  /-- Bytes of the kernel image, or `none` when `open` fails. -/
  kernel_file : Option (List Nat)
  /-- Size `fstat` reports for the kernel image, or `none` when it fails. -/
  kernel_stat : Option Int
  /-- Previous contents of the buffer `signature`. -/
  sig_old : List Nat
  /-- Previous contents of `load_addr`. -/
  addr_old : List Nat
  /-- Bytes of the ramdisk of that name, or `none` when `open` fails. -/
  initrd_file : List Char → Option (List Nat)
  /-- Return value of the final `DOM0_BUILDDOMAIN` call. -/
  launch_rc : Int

/-- Value of a decimal digit. -/
def digit_val (c : Char) : Nat := c.toNat - 48

/-- The digits at the start of a string, read as a decimal number. -/
def atoi_digits : List Char → Nat → Nat
  | [], acc => acc
  | c :: cs, acc => if c.isDigit then atoi_digits cs (acc * 10 + digit_val c) else acc

/-- The C library function `atoi`: the characters of `isspace` (blank, and
the codes 9 to 13: tab, newline, vertical tab, form feed, carriage return),
an optional sign, digits. -/
def atoi (s : List Char) : Int :=
  match s.dropWhile (fun c => c = ' ' || (9 ≤ c.toNat && c.toNat ≤ 13)) with
  | '-' :: cs => - (atoi_digits cs 0 : Int)
  | '+' :: cs => (atoi_digits cs 0 : Int)
  | cs => (atoi_digits cs 0 : Int)

/-- The function `get_tot_pages`. -/
def get_tot_pages (sys : Sys) : Int :=
  match sys.tot_pages with
  | none => -1
  | some n => to_int n

/-- Result of the loop of `main` that assembles `cmd_line`: the string, the
counter `cmd_len`, whether `ERROR` was called. -/
structure CmdLine where
  status : Status
  line : List Char
  cmd_len : Nat
  reported : Bool
deriving DecidableEq, Repr

/-- The loop `for ( count = args_start; count < argc; count++ )` of `main`
over the remaining arguments.  `strlen(argv[count] + 1)` is the length of the
argument without its first character; for an empty argument it reads past
the terminator. -/
def cmdline_loop (max_cmd_len : Nat) : List (List Char) → Nat → List Char → CmdLine
  | [], cmd_len, line =>
    { status := .ok, line := line, cmd_len := cmd_len, reported := false }
  | arg :: rest, cmd_len, line =>
    if cmd_len + arg.length > max_cmd_len - 1 then
      { status := .ok, line := line, cmd_len := cmd_len, reported := true }
    else
      match arg with
      | [] => { status := .fault, line := line ++ [' '], cmd_len := cmd_len, reported := false }
      | _ :: tl => cmdline_loop max_cmd_len rest (cmd_len + tl.length) (line ++ arg ++ [' '])

/-- How `main` ends: the exit status, the world, and (for the proofs) the
header error and the run of `setup_guestos` when it got that far. -/
structure MainRun where
  status : Status
  code : Int
  w : World
  header_error : Option HeaderError
  run : Option Run
  cmd : Option CmdLine

/-- An exit of `main` before `setup_guestos`. -/
def MainRun.exit1 (w : World) (e : Option HeaderError) : MainRun :=
  { status := .ok, code := 1, w := w, header_error := e, run := none, cmd := none }

/-- The last part of `main`: `setup_guestos`, the command line, and the
`DOM0_BUILDDOMAIN` call. -/
def main_build (max_cmd_len : Nat) (sys : Sys) (args : List (List Char))
    (initrd : Option (List Nat)) (tot_pages : Int) (hdr : Header) (w0 : World) : MainRun :=
  let r := setup_guestos sys.env hdr.rest initrd (of_int tot_pages) hdr.load_addr hdr.ksize w0
  match r.status with
  | .ok =>
    let c := cmdline_loop max_cmd_len args 0 []
    match c.status with
    | .ok =>
      { status := .ok, code := if sys.launch_rc ≠ 0 then 1 else 0,
        w := { r.w with trace := r.w.trace ++ [Effect.build_domain c.line] },
        header_error := none, run := some r, cmd := some c }
    | st => { status := st, code := 1, w := r.w, header_error := none, run := some r,
              cmd := some c }
  | .error_out =>
    { status := .ok, code := 1, w := r.w, header_error := none, run := some r, cmd := none }
  | st => { status := st, code := 1, w := r.w, header_error := none, run := some r, cmd := none }

/-- The function `main`, with `argv` as a list of strings and `MAX_CMD_LEN`
(defined in a header that is not in the source tree) as a parameter. -/
def main (max_cmd_len : Nat) (sys : Sys) (argv : List (List Char)) (w0 : World) : MainRun :=
  if argv.length < 4 then MainRun.exit1 w0 none
  else if atoi (argv.getD 1 []) = 0 then MainRun.exit1 w0 none
  else
    let tot_pages := get_tot_pages sys
    if tot_pages < 0 then MainRun.exit1 w0 none
    else
      match sys.kernel_file with
      | none => MainRun.exit1 w0 none
      | some file =>
        match read_kernel_header sys.kernel_stat file (wrap_int (tot_pages * 4))
            sys.sig_old sys.addr_old with
        | .error e => MainRun.exit1 w0 (some e)
        | .ok hdr =>
          if argv.length > 4 ∧ (argv.getD 4 []).take 7 = "initrd=".toList then
            match sys.initrd_file (((argv.getD 4 []).drop 7).take 1023) with
            | none => MainRun.exit1 w0 none
            | some bytes => main_build max_cmd_len sys (argv.drop 5) (some bytes) tot_pages hdr w0
          else main_build max_cmd_len sys (argv.drop 4) none tot_pages hdr w0

/-! ## Closed forms used in the proofs

The closed forms take the array as the function `frame` from an index to
the word read there, `page_at env page_array` for a run. -/

/-- Number of leaf tables taken before the iteration for page `c`, for a load
address whose leaf-table offset is `k`. -/
def leaves_before (k c : Nat) : Nat := if c = 0 then 0 else (k + c - 1) / 1024 + 1

/-- Whether the iteration for page `c` starts a new leaf table. -/
def starts_leaf (k c : Nat) : Prop := c = 0 ∨ (k + c) % 1024 = 0

instance starts_leaf_decidable (k c : Nat) : Decidable (starts_leaf k c) :=
  inferInstanceAs (Decidable (c = 0 ∨ (k + c) % 1024 = 0))

/-- Frame of the page directory, `page_array[tot_pages - 1]`. -/
def root_frame (frame : Int → Nat) (tot_pages : Nat) : Nat :=
  frame ((tot_pages : Int) - 1)

/-- Frame of the leaf table that holds the entry of page `c`. -/
def leaf_frame (frame : Int → Nat) (tot_pages virt_load_addr c : Nat) : Nat :=
  frame ((tot_pages : Int) - 2 - (((l1_table_offset virt_load_addr + c) / 1024 : Nat) : Int))

/-- Address of the leaf entry of page `c`. -/
def l1_ptr (frame : Int → Nat) (tot_pages virt_load_addr c : Nat) : Nat :=
  wrap (shl_page (leaf_frame frame tot_pages virt_load_addr c) +
    (l1_table_offset virt_load_addr + c) % 1024 * 4)

/-- Address of the page-directory entry for the leaf table of page `c`. -/
def l2_ptr (frame : Int → Nat) (tot_pages virt_load_addr c : Nat) : Nat :=
  wrap (shl_page (root_frame frame tot_pages) +
    (l2_table_offset virt_load_addr + (l1_table_offset virt_load_addr + c) / 1024) * 4)

/-- Requests written by the iteration of the loop for page `c`. -/
def iter_out (frame : Int → Nat) (tot_pages virt_load_addr c : Nat) : List Emitted :=
  (if starts_leaf (l1_table_offset virt_load_addr) c then
    [⟨.l2 c, ⟨l2_ptr frame tot_pages virt_load_addr c,
              l1_ptr frame tot_pages virt_load_addr c ||| L2_PROT⟩⟩]
   else []) ++
  (if c < tot_pages then
    [⟨.l1 c, ⟨l1_ptr frame tot_pages virt_load_addr c,
              l1_val (pt_start tot_pages virt_load_addr) c (frame (c : Int))⟩⟩,
     ⟨.mpt c, ⟨shl_page (frame (c : Int)) ||| PGREQ_MPT_UPDATE, c⟩⟩]
   else [])

/-- The root-pin request. -/
def pin_req (frame : Int → Nat) (tot_pages : Nat) : Emitted :=
  ⟨.pin, ⟨shl_page (root_frame frame tot_pages) ||| PGREQ_EXTENDED_COMMAND,
          PGEXT_PIN_L2_TABLE⟩⟩

/-- The request array after the iterations for pages `0 .. c - 1`. -/
def batch_upto (frame : Int → Nat) (tot_pages virt_load_addr c : Nat) : List Emitted :=
  pin_req frame tot_pages ::
    (List.range c).flatMap (iter_out frame tot_pages virt_load_addr)

/-- What holds of the loop state when the iteration for page `c` starts. -/
structure LoopInv (frame : Int → Nat) (tot_pages virt_load_addr c : Nat) (s : PtState) :
    Prop where
  alloc : s.alloc_index =
    (tot_pages : Int) - 2 - (leaves_before (l1_table_offset virt_load_addr) c : Nat)
  l2 : s.l2tab = wrap (shl_page (root_frame frame tot_pages) +
    (l2_table_offset virt_load_addr + leaves_before (l1_table_offset virt_load_addr) c) * 4)
  l1_new : starts_leaf (l1_table_offset virt_load_addr) c → s.l1tab % 4096 = 0
  l1_old : ¬ starts_leaf (l1_table_offset virt_load_addr) c →
    s.l1tab = l1_ptr frame tot_pages virt_load_addr c
  updates : s.updates = batch_upto frame tot_pages virt_load_addr c
  tables : s.table_idx =
    (List.range (leaves_before (l1_table_offset virt_load_addr) c + 1)).map
      (fun j => (tot_pages : Int) - 1 - (j : Nat))

/-! ## Concrete inputs -/

/-- An environment in which every call succeeds, with the `n` frames
`256, 257, ..`. -/
def demo_env (n : Nat) : Env :=
  { devmem_ok := true, malloc_ok := true,
    pfn_list := some ((List.range n).map (fun i => 256 + i)),
    map_ok := fun _ _ => true, initrd_stat := none, pt_mlock_ok := true,
    pt_update_ok := true, stray := fun _ => 0 }

/-- The world before the builder has done anything. -/
def world0 : World := { trace := [], nmaps := 0 }

/-- The request that enters the leaf table of page `c` in the page directory. -/
def l2_req (frame : Int → Nat) (tot_pages virt_load_addr c : Nat) : Emitted :=
  ⟨.l2 c, ⟨l2_ptr frame tot_pages virt_load_addr c,
           l1_ptr frame tot_pages virt_load_addr c ||| L2_PROT⟩⟩

/-- The leaf-entry request of page `c`. -/
def l1_req (frame : Int → Nat) (tot_pages virt_load_addr c : Nat) : Emitted :=
  ⟨.l1 c, ⟨l1_ptr frame tot_pages virt_load_addr c,
           l1_val (pt_start tot_pages virt_load_addr) c (frame (c : Int))⟩⟩

/-- The physical-to-machine request of page `c`. -/
def mpt_req (frame : Int → Nat) (c : Nat) : Emitted :=
  ⟨.mpt c, ⟨shl_page (frame (c : Int)) ||| PGREQ_MPT_UPDATE, c⟩⟩

/-- Size in bytes of `page_update_request_t` (two `unsigned long`). -/
def SIZEOF_PAGE_UPDATE_REQUEST : Nat := 8

/-- Number of requests that fit the array of `malloc((tot_pages + 1024) * 3 *
sizeof(page_update_request_t))`. -/
def pgt_capacity (tot_pages : Nat) : Nat :=
  wrap (wrap (wrap (tot_pages + 1024) * 3) * SIZEOF_PAGE_UPDATE_REQUEST) /
    SIZEOF_PAGE_UPDATE_REQUEST

/-- The `t`-th chunk that a copy loop over `len` bytes reads from `bytes`: at
most `PAGE_SIZE` bytes from offset `t * PAGE_SIZE`. -/
def chunk (len : Nat) (bytes : List Nat) (t : Nat) : List Nat :=
  (bytes.drop (PAGE_SIZE * t)).take (min PAGE_SIZE (len - PAGE_SIZE * t))

/-- Number of chunks of `len` bytes, `ceil(len / PAGE_SIZE)`. -/
def chunk_count (len : Nat) : Nat := (len + (PAGE_SIZE - 1)) / PAGE_SIZE

/-- The calls of `copy_to_domain_page` of a copy loop that starts at frame
index `base`: chunk `t` goes to index `base + t`. -/
def chunk_copies (len : Nat) (bytes : List Nat) (base n : Nat) : List (Nat × List Nat) :=
  (List.range n).map (fun t => (base + t, chunk len bytes t))

/-- A kernel image: the signature, the load address `0xC0000000`, and a
payload of three bytes. -/
def demo_image : List Nat := GUEST_SIG ++ [0, 0, 0, 192] ++ [1, 2, 3]

/-- The frame list of `demo_env n`. -/
def demo_frames (n : Nat) : List Nat := (List.range n).map (fun i => 256 + i)

/-- The environment `demo_env n` with a ramdisk of `isize` bytes. -/
def demo_env_rd (n isize : Nat) : Env :=
  { devmem_ok := true, malloc_ok := true,
    pfn_list := some ((List.range n).map (fun i => 256 + i)),
    map_ok := fun _ _ => true, initrd_stat := some isize, pt_mlock_ok := true,
    pt_update_ok := true, stray := fun _ => 0 }

/-- Whether an effect is a page-table update hypercall. -/
def is_pt_update : Effect → Bool
  | .pt_update _ _ _ => true
  | _ => false

/-- Number of page-table update hypercalls in a trace. -/
def submissions (t : List Effect) : Nat := t.countP is_pt_update

/-- The environment `demo_env n` except that the hypervisor reports only
`got` frames. -/
def short_list_env (n got : Nat) : Env :=
  { demo_env n with pfn_list := some ((List.range got).map (fun i => 256 + i)) }

/-- A system with a domain of 16 frames, the given kernel image, no ramdisk
file, and calls that all succeed. -/
def demo_sys (file : List Nat) : Sys :=
  { env := demo_env 16, tot_pages := some 16, kernel_file := some file,
    kernel_stat := some (file.length : Int), sig_old := [], addr_old := [],
    initrd_file := fun _ => none, launch_rc := 0 }

/-- The command line `xi_build 1 image 1`. -/
def demo_argv : List (List Char) :=
  ["xi_build".toList, "1".toList, "image".toList, "1".toList]

/-- The image `demo_image` with the last byte of the signature changed. -/
def bad_image : List Nat := [88, 101, 110, 111, 71, 117, 101, 120] ++ [0, 0, 0, 192] ++ [1, 2, 3]

/-- Place of a request in program order: the pin first, then for each page
`c` the page-directory request, the leaf-entry request and the
physical-to-machine request of the iteration for `c`. -/
def site_rank : Site → Nat
  | .pin => 0
  | .l2 c => 3 * c + 1
  | .l1 c => 3 * c + 2
  | .mpt c => 3 * c + 3

/-- The environment `demo_env n` except that the first `mmap` of the run
fails. -/
def first_map_fails_env (n : Nat) : Env :=
  { demo_env n with map_ok := fun i _ => i != 0 }

/-- Quotient rounded up, `ceil(a / b)`. -/
def ceil_div (a b : Nat) : Nat := (a + (b - 1)) / b

/-- The table-page budget in the words of the specification:
`ceil((leaf_entries_per_table - 1 + total_pages + 1) / leaf_entries_per_table)`
leaf tables and one root table. -/
def spec_num_table_pages (total_pages : Nat) : Nat :=
  ceil_div (ENTRIES_PER_L1_PAGETABLE - 1 + total_pages + 1) ENTRIES_PER_L1_PAGETABLE + 1

/-- The environment `demo_env_rd n isize` except that the second `mmap` of
the run fails. -/
def second_map_fails_env (n isize : Nat) : Env :=
  { demo_env_rd n isize with map_ok := fun i _ => i != 1 }

/-! ## Arithmetic of the address computations -/

theorem l1_table_offset_eq (a : Nat) : l1_table_offset a = a / 4096 % 1024 := by
  unfold l1_table_offset PAGE_SHIFT ENTRIES_PER_L1_PAGETABLE
  rw [Nat.shiftRight_eq_div_pow]
  exact Nat.and_pow_two_sub_one_eq_mod _ 10

theorem l2_table_offset_eq (a : Nat) : l2_table_offset a = a / 4194304 := by
  unfold l2_table_offset L2_PAGETABLE_SHIFT
  rw [Nat.shiftRight_eq_div_pow]

theorem shl_page_eq (x : Nat) : shl_page x = x * 4096 % 4294967296 := by
  unfold shl_page wrap WORD PAGE_SHIFT
  rw [Nat.shiftLeft_eq]

theorem wrap_eq (x : Nat) : wrap x = x % 4294967296 := rfl

theorem page_mask_eq (x : Nat) : x &&& (PAGE_SIZE - 1) = x % 4096 :=
  Nat.and_pow_two_sub_one_eq_mod x 12

theorem l1_table_offset_lt (a : Nat) : l1_table_offset a < 1024 := by
  rw [l1_table_offset_eq]; omega

theorem l1_offset_step (a c : Nat) :
    l1_table_offset (wrap (a + shl_page c)) = (l1_table_offset a + c) % 1024 := by
  simp only [l1_table_offset_eq, shl_page_eq, wrap_eq]
  omega


theorem leaves_before_succ (k c : Nat) (hk : k < 1024) :
    leaves_before k (c + 1) = leaves_before k c + (if starts_leaf k c then 1 else 0) := by
  unfold leaves_before starts_leaf
  by_cases h0 : c = 0
  · subst h0; simp; omega
  · by_cases h1 : (k + c) % 1024 = 0
    · simp [h0, h1]; omega
    · simp [h0, h1]; omega

theorem leaves_before_of_starts (k c : Nat) (hk : k < 1024) (h : starts_leaf k c) :
    leaves_before k c = (k + c) / 1024 := by
  unfold leaves_before
  unfold starts_leaf at h
  split_ifs <;> omega

theorem page_at_inb (env : Env) {pa : List Nat} {i : Int} (h0 : 0 ≤ i)
    (h1 : i.toNat < pa.length) : page_at env pa i = pa.getD i.toNat 0 := by
  unfold page_at
  rw [if_pos ⟨h0, h1⟩]

theorem page_at_nat (env : Env) {pa : List Nat} {c : Nat} (h : c < pa.length) :
    page_at env pa (c : Int) = pa.getD c 0 := by
  rw [page_at_inb env (Int.ofNat_nonneg c) (by simpa using h)]
  simp

theorem clear_domain_page_fst (env : Env) (w : World) (pfn : Nat) :
    (clear_domain_page env w pfn).1 = 0 ∨ (clear_domain_page env w pfn).1 = -1 := by
  unfold clear_domain_page
  split <;> simp

/-- The leaf-table block of one iteration, from the loop invariant. -/
theorem new_l1_spec {env : Env} {pa : List Nat} {tot vla c : Nat} {s s1 : PtState}
    (inv : LoopInv (page_at env pa) tot vla c s)
    (h : new_l1 env pa vla c s = (.ok, s1)) :
    s1.l1tab = l1_ptr (page_at env pa) tot vla c ∧
    s1.alloc_index = (tot : Int) - 2 - (leaves_before (l1_table_offset vla) (c + 1) : Nat) ∧
    s1.l2tab = wrap (shl_page (root_frame (page_at env pa) tot) +
      (l2_table_offset vla + leaves_before (l1_table_offset vla) (c + 1)) * 4) ∧
    s1.updates = s.updates ++
      (if starts_leaf (l1_table_offset vla) c then
        [⟨.l2 c, ⟨l2_ptr (page_at env pa) tot vla c,
          l1_ptr (page_at env pa) tot vla c ||| L2_PROT⟩⟩] else []) ∧
    s1.table_idx = (List.range (leaves_before (l1_table_offset vla) (c + 1) + 1)).map
      (fun j => (tot : Int) - 1 - (j : Nat)) := by
  have hk := l1_table_offset_lt vla
  have hsucc := leaves_before_succ (l1_table_offset vla) c hk
  unfold new_l1 at h
  rw [page_mask_eq] at h
  by_cases hs : starts_leaf (l1_table_offset vla) c
  · have hal := inv.l1_new hs
    rw [if_pos hal] at h
    rw [if_pos hs] at hsucc
    have hlb := leaves_before_of_starts _ c hk hs
    dsimp only at h
    split_ifs at h with hc
    · simp at h
    simp only [Prod.mk.injEq, true_and] at h
    subst h
    have hpfn : page_at env pa s.alloc_index = leaf_frame (page_at env pa) tot vla c := by
      unfold leaf_frame; rw [inv.alloc, hlb]
    refine ⟨?_, ?_, ?_, ?_, ?_⟩
    · simp only [l1_ptr, l1_offset_step, hpfn, SIZEOF_L1_PGENTRY]
    · simp only [inv.alloc, hsucc]; omega
    · simp only [inv.l2, hsucc, SIZEOF_L2_PGENTRY, wrap_eq]; omega
    · simp only [if_pos hs, l1_ptr, l1_offset_step, hpfn, SIZEOF_L1_PGENTRY, l2_ptr, inv.l2,
        hlb]
    · simp only [inv.tables, hsucc, inv.alloc]
      rw [List.range_succ (leaves_before (l1_table_offset vla) c + 1), List.map_append]
      simp only [List.map_cons, List.map_nil, List.append_cancel_left_eq, List.cons.injEq,
        and_true]
      omega
  · have hne : ¬ s.l1tab % 4096 = 0 := by
      rw [inv.l1_old hs]
      unfold starts_leaf at hs
      simp only [l1_ptr, shl_page_eq, wrap_eq]
      omega
    rw [if_neg hne] at h
    rw [if_neg hs] at hsucc
    simp only [Prod.mk.injEq, true_and] at h
    subst h
    refine ⟨inv.l1_old hs, ?_, ?_, ?_, ?_⟩
    · rw [inv.alloc, hsucc]; rfl
    · rw [inv.l2, hsucc]; rfl
    · simp [if_neg hs]
    · rw [inv.tables, hsucc]

/-! ## The page-table loop -/

theorem batch_upto_succ (pa : Int → Nat) (tot vla c : Nat) :
    batch_upto pa tot vla (c + 1) = batch_upto pa tot vla c ++ iter_out pa tot vla c := by
  unfold batch_upto
  rw [List.range_succ, List.flatMap_append]
  simp

/-- The loop, from the invariant at the start of iteration `c` to its end. -/
theorem pt_loop_spec {env : Env} {pa : List Nat} {tot vla : Nat} (htot : tot + 1 < WORD) :
    ∀ (fuel c : Nat) (s s2 : PtState), c ≤ tot → LoopInv (page_at env pa) tot vla c s →
      pt_loop env pa tot vla (pt_start tot vla) fuel c s = (.ok, s2) →
      s2.updates = batch_upto (page_at env pa) tot vla (tot + 1) ∧
      s2.alloc_index =
        (tot : Int) - 2 - (leaves_before (l1_table_offset vla) (tot + 1) : Nat) ∧
      s2.table_idx = (List.range (leaves_before (l1_table_offset vla) (tot + 1) + 1)).map
        (fun j => (tot : Int) - 1 - (j : Nat)) := by
  intro fuel
  induction fuel with
  | zero => intro c s s2 _ _ h; simp [pt_loop] at h
  | succ fuel ih =>
    intro c s s2 hc inv h
    unfold pt_loop at h
    have hw : wrap (tot + 1) = tot + 1 := Nat.mod_eq_of_lt htot
    rw [hw, if_pos (by omega)] at h
    cases hn : new_l1 env pa vla c s with
    | mk st s1 =>
      rw [hn] at h
      cases st with
      | ok =>
        simp only at h
        obtain ⟨h1, h2, h3, h4, h5⟩ := new_l1_spec inv hn
        by_cases hct : c = tot
        · rw [if_pos hct] at h
          simp only [Prod.mk.injEq, true_and] at h
          subst h
          subst hct
          refine ⟨?_, h2, h5⟩
          rw [h4, inv.updates, batch_upto_succ]
          simp [iter_out]
        · rw [if_neg hct] at h
          have hk := l1_table_offset_lt vla
          refine ih (c + 1) _ s2 (by omega) ?_ h
          constructor
          · exact h2
          · exact h3
          · intro hs
            simp only [h1, l1_ptr, shl_page_eq, wrap_eq, SIZEOF_L1_PGENTRY]
            unfold starts_leaf at hs
            omega
          · intro hs
            simp only [h1, SIZEOF_L1_PGENTRY]
            unfold starts_leaf at hs
            have e1 : (l1_table_offset vla + (c + 1)) / 1024 = (l1_table_offset vla + c) / 1024 := by
              omega
            simp only [l1_ptr, leaf_frame, e1, shl_page_eq, wrap_eq]
            omega
          · simp only [h4, inv.updates, batch_upto_succ, iter_out, h1]
            rw [if_pos (by omega : c < tot)]
            simp
          · exact h5
      | error_out => simp at h
      | fault => simp at h
      | out_of_fuel => simp at h

/-- The counter `num_pgt_updates` follows the request array through the
leaf-table block. -/
theorem new_l1_count {env : Env} {pa : List Nat} {vla c : Nat} {s s1 : PtState} {st : Status}
    (h : new_l1 env pa vla c s = (st, s1))
    (hs : s.num_pgt_updates = wrap s.updates.length) :
    s1.num_pgt_updates = wrap s1.updates.length := by
  unfold new_l1 at h
  split_ifs at h with h1
  · dsimp only at h
    split_ifs at h with h2
    · simp only [Prod.mk.injEq] at h
      obtain ⟨_, rfl⟩ := h
      exact hs
    · simp only [Prod.mk.injEq] at h
      obtain ⟨_, rfl⟩ := h
      simp only [List.length_append, List.length_singleton, hs, wrap_eq]
      omega
  · simp only [Prod.mk.injEq] at h
    obtain ⟨_, rfl⟩ := h
    exact hs

/-- The counter `num_pgt_updates` follows the request array through the loop. -/
theorem pt_loop_count {env : Env} {pa : List Nat} {tot vla ps : Nat} :
    ∀ (fuel c : Nat) (s s2 : PtState) (st : Status),
      pt_loop env pa tot vla ps fuel c s = (st, s2) →
      s.num_pgt_updates = wrap s.updates.length →
      s2.num_pgt_updates = wrap s2.updates.length := by
  intro fuel
  induction fuel with
  | zero =>
    intro c s s2 st h hs
    simp only [pt_loop, Prod.mk.injEq] at h
    obtain ⟨_, rfl⟩ := h
    exact hs
  | succ fuel ih =>
    intro c s s2 st h hs
    unfold pt_loop at h
    by_cases h1 : c < wrap (tot + 1)
    · rw [if_pos h1] at h
      cases hn : new_l1 env pa vla c s with
      | mk st1 s1 =>
        rw [hn] at h
        have hc1 := new_l1_count hn hs
        cases st1 with
        | ok =>
          dsimp only at h
          by_cases h2 : c = tot
          · rw [if_pos h2] at h
            simp only [Prod.mk.injEq] at h
            obtain ⟨_, rfl⟩ := h
            exact hc1
          · rw [if_neg h2] at h
            refine ih _ _ _ _ h ?_
            simp only [List.length_append, List.length_cons, List.length_nil, hc1, wrap_eq]
            omega
        | error_out =>
          simp only [Prod.mk.injEq] at h
          obtain ⟨_, rfl⟩ := h
          exact hc1
        | fault =>
          simp only [Prod.mk.injEq] at h
          obtain ⟨_, rfl⟩ := h
          exact hc1
        | out_of_fuel =>
          simp only [Prod.mk.injEq] at h
          obtain ⟨_, rfl⟩ := h
          exact hc1
    · rw [if_neg h1] at h
      simp only [Prod.mk.injEq] at h
      obtain ⟨_, rfl⟩ := h
      exact hs

/-! ## Runs of `build_tables` and `setup_guestos` that succeed -/

theorem to_int_pred {tot : Nat} (htot : tot < 2147483648) :
    to_int (usub tot 1) = (tot : Int) - 1 := by
  unfold to_int usub wrap WORD
  simp only [Nat.mod_mod]
  split_ifs <;> omega

/-- What a run of `build_tables` that returns 0 has done. -/
theorem build_tables_inv {env : Env} {pa : List Nat} {tot vla : Nat} {m : dom_meminfo_t}
    {k : LoadState} {r : Run} (htot : tot < 2147483648)
    (hr : build_tables env pa tot vla m k = r) (h : r.status = .ok) :
    r.updates = batch_upto (page_at env pa) tot vla (tot + 1) ∧
    r.alloc_index =
      (tot : Int) - 2 - (leaves_before (l1_table_offset vla) (tot + 1) : Nat) ∧
    r.table_idx =
      (List.range (leaves_before (l1_table_offset vla) (tot + 1) + 1)).map
        (fun j => (tot : Int) - 1 - (j : Nat)) ∧
    r.copies = k.copies ∧
    r.meminfo =
      { m with
        l2_pgt_addr := shl_page (root_frame (page_at env pa) tot),
        virt_shinfo_addr := wrap (vla + shl_page tot),
        virt_startinfo_addr := wrap (vla + of_int (((tot : Int) - 3 -
          (leaves_before (l1_table_offset vla) (tot + 1) : Nat)) * 4096)) } ∧
    env.pt_update_ok = true ∧
    r.num_pgt_updates = wrap r.updates.length ∧
    ∃ w : World, r.w = { w with trace := w.trace ++
      [Effect.pt_update (r.updates.map Emitted.req) (to_int r.num_pgt_updates) true] } := by
  unfold build_tables at hr
  dsimp only at hr
  rw [to_int_pred htot] at hr
  generalize hp : page_at env pa ((tot : Int) - 1) = pfn at hr
  have hroot : pfn = root_frame (page_at env pa) tot := by unfold root_frame; exact hp.symm
  by_cases hc : (clear_domain_page env k.w pfn).1 < 0
  · rw [if_pos hc] at hr; subst hr; cases h
  · rw [if_neg hc] at hr
    have inv0 : LoopInv (page_at env pa) tot vla 0
          { l1tab := 0,
            l2tab := wrap (shl_page pfn + l2_table_offset vla * SIZEOF_L2_PGENTRY),
            alloc_index := (tot : Int) - 1 - 1,
            updates := [⟨.pin, ⟨shl_page pfn ||| PGREQ_EXTENDED_COMMAND, PGEXT_PIN_L2_TABLE⟩⟩],
            num_pgt_updates := 1,
            w := (clear_domain_page env k.w pfn).2,
            table_idx := [(tot : Int) - 1] } := by
      constructor
      · simp [leaves_before]; omega
      · simp [leaves_before, hroot, SIZEOF_L2_PGENTRY]
      · intro _; rfl
      · intro hs; exact absurd (Or.inl rfl) hs
      · simp [batch_upto, pin_req, hroot]
      · simp [leaves_before, List.range_succ]
    have htot1 : tot + 1 < WORD := by unfold WORD; omega
    cases hl : pt_loop env pa tot vla (pt_start tot vla) (tot + 2) 0
          { l1tab := 0,
            l2tab := wrap (shl_page pfn + l2_table_offset vla * SIZEOF_L2_PGENTRY),
            alloc_index := (tot : Int) - 1 - 1,
            updates := [⟨.pin, ⟨shl_page pfn ||| PGREQ_EXTENDED_COMMAND, PGEXT_PIN_L2_TABLE⟩⟩],
            num_pgt_updates := 1,
            w := (clear_domain_page env k.w pfn).2,
            table_idx := [(tot : Int) - 1] } with
    | mk st s =>
      rw [hl] at hr
      have hsp : st = .ok →
          s.updates = batch_upto (page_at env pa) tot vla (tot + 1) ∧
          s.alloc_index =
            (tot : Int) - 2 - (leaves_before (l1_table_offset vla) (tot + 1) : Nat) ∧
          s.table_idx = (List.range (leaves_before (l1_table_offset vla) (tot + 1) + 1)).map
            (fun j => (tot : Int) - 1 - (j : Nat)) := by
        intro hst; subst hst
        exact pt_loop_spec htot1 _ _ _ _ (Nat.zero_le _) inv0 hl
      have hcnt := pt_loop_count _ _ _ _ _ hl (by rfl)
      cases st with
      | ok =>
        obtain ⟨g1, g2, g3⟩ := hsp rfl
        dsimp only at hr
        subst hr
        dsimp only at h ⊢
        have hml : env.pt_mlock_ok = true := by
          by_contra hne
          simp [send_pgupdates, hne] at h
        have hsend : env.pt_update_ok = true := by
          by_contra hne
          simp [send_pgupdates, hml, hne] at h
        refine ⟨g1, g2, g3, rfl, ?_, hsend, hcnt, ?_⟩
        · rw [g2, hroot, show (tot : Int) - 2 -
              (leaves_before (l1_table_offset vla) (tot + 1) : Nat) - 1 = (tot : Int) - 3 -
              (leaves_before (l1_table_offset vla) (tot + 1) : Nat) from by omega]
        · refine ⟨s.w, ?_⟩
          simp [send_pgupdates, hsend, hml]
      | error_out => dsimp only at hr; subst hr; cases h
      | fault => dsimp only at hr; subst hr; cases h
      | out_of_fuel => dsimp only at hr; subst hr; cases h

/-- A frame list whose count equals `tot_pages` holds `tot_pages` frames. -/
theorem get_pfn_list_full {env : Env} {tot : Nat} (htot : tot < 2147483648)
    (hg : of_int (get_pfn_list env tot).1 = tot) : (get_pfn_list env tot).2.length = tot := by
  unfold get_pfn_list at hg ⊢
  cases hl : env.pfn_list with
  | none =>
    rw [hl] at hg
    unfold of_int WORD at hg
    dsimp only at hg
    omega
  | some l =>
    rw [hl] at hg
    dsimp only at hg ⊢
    have hle : (l.take tot).length ≤ tot := by simp
    unfold of_int WORD at hg
    omega

/-- A run of `setup_guestos` that returns 0 went through both copy loops and
`build_tables`. -/
theorem setup_guestos_inv {env : Env} {kernel : List Nat} {initrd : Option (List Nat)}
    {tot vla ksize : Nat} {w0 : World} {r : Run}
    (hr : setup_guestos env kernel initrd tot vla ksize w0 = r) (h : r.status = .ok) :
    ∃ (k1 k2 : LoadState) (m : dom_meminfo_t),
      env.devmem_ok = true ∧ env.malloc_ok = true ∧
      of_int (get_pfn_list env tot).1 = tot ∧
      load_loop env (get_pfn_list env tot).2 ksize (kernel.length + 1) 0
        { i := 0, stream := kernel, w := w0, copies := [] } = (.ok, k1) ∧
      load_initrd env (get_pfn_list env tot).2 initrd tot vla ksize k1 = (.ok, m, k2) ∧
      build_tables env (get_pfn_list env tot).2 tot vla m k2 = r := by
  unfold setup_guestos at hr
  by_cases hd : env.devmem_ok = true
  swap
  · rw [if_pos (by simpa using hd)] at hr; subst hr; cases h
  rw [if_neg (by simpa using hd)] at hr
  by_cases hm : env.malloc_ok = true
  swap
  · rw [if_pos (by simpa using hm)] at hr; subst hr; cases h
  rw [if_neg (by simpa using hm)] at hr
  dsimp only at hr
  by_cases hg : of_int (get_pfn_list env tot).1 = tot
  swap
  · rw [if_pos hg] at hr; subst hr; cases h
  rw [if_neg (not_not.mpr hg)] at hr
  cases hk : load_loop env (get_pfn_list env tot).2 ksize (kernel.length + 1) 0
      { i := 0, stream := kernel, w := w0, copies := [] } with
  | mk st k1 =>
    rw [hk] at hr
    cases st with
    | ok =>
      dsimp only at hr
      cases hi : load_initrd env (get_pfn_list env tot).2 initrd tot vla ksize k1 with
      | mk st2 mk2 =>
        obtain ⟨m, k2⟩ := mk2
        rw [hi] at hr
        cases st2 with
        | ok => exact ⟨k1, k2, m, hd, hm, hg, rfl, hi, hr⟩
        | error_out => dsimp only at hr; subst hr; cases h
        | fault => dsimp only at hr; subst hr; cases h
        | out_of_fuel => dsimp only at hr; subst hr; cases h
    | error_out => dsimp only at hr; subst hr; cases h
    | fault => dsimp only at hr; subst hr; cases h
    | out_of_fuel => dsimp only at hr; subst hr; cases h

/-- The frame list of a run that returns 0 has exactly `tot_pages` frames,
and the run's requests and cursor are the closed forms. -/
theorem setup_guestos_ok {env : Env} {kernel : List Nat} {initrd : Option (List Nat)}
    {tot vla ksize : Nat} {w0 : World} {r : Run} (htot : tot < 2147483648)
    (hr : setup_guestos env kernel initrd tot vla ksize w0 = r) (h : r.status = .ok) :
    (get_pfn_list env tot).2.length = tot ∧
    r.updates = batch_upto (page_at env (get_pfn_list env tot).2) tot vla (tot + 1) ∧
    r.alloc_index =
      (tot : Int) - 2 - (leaves_before (l1_table_offset vla) (tot + 1) : Nat) ∧
    r.table_idx =
      (List.range (leaves_before (l1_table_offset vla) (tot + 1) + 1)).map
        (fun j => (tot : Int) - 1 - (j : Nat)) := by
  obtain ⟨k1, k2, m, _, _, hg, _, _, hb⟩ := setup_guestos_inv hr h
  obtain ⟨g1, g2, g3, _⟩ := build_tables_inv htot hb h
  exact ⟨get_pfn_list_full htot hg, g1, g2, g3⟩

theorem leaves_before_last (k tot : Nat) : leaves_before k (tot + 1) = (k + tot) / 1024 + 1 := by
  unfold leaves_before
  simp

theorem num_pt_pages_eq {tot : Nat} (vla : Nat) (htot : tot < 2147483649) :
    num_pt_pages tot vla = ((l1_table_offset vla + tot) / 1024 + 2 : Nat) := by
  have hk := l1_table_offset_lt vla
  unfold num_pt_pages to_int wrap WORD
  rw [if_pos (by omega)]
  omega

theorem pt_start_eq {tot : Nat} (vla : Nat) (htot : tot < 2147483649)
    (hb : (l1_table_offset vla + tot) / 1024 + 2 ≤ tot) :
    pt_start tot vla = tot - 2 - (l1_table_offset vla + tot) / 1024 := by
  unfold pt_start of_int WORD
  rw [num_pt_pages_eq vla htot]
  omega

theorem shl_page_mul (x : Nat) : shl_page x = 2 ^ 12 * (x % 1048576) := by
  rw [shl_page_eq]; omega

theorem shl_page_or (x b : Nat) (hb : b < 4096) : shl_page x ||| b = shl_page x + b := by
  rw [shl_page_mul]
  exact (Nat.mul_add_lt_is_or (by simpa using hb) _).symm

theorem shl_page_lt (x : Nat) : shl_page x < 4294967296 := by
  rw [shl_page_eq]; omega

theorem shl_page_mod (x : Nat) : shl_page x % 4096 = 0 := by
  rw [shl_page_eq]; omega

theorem shl_page_testBit_low (x : Nat) {i : Nat} (hi : i < 12) :
    (shl_page x).testBit i = false := by
  rw [shl_page_mul, Nat.testBit_mul_pow_two]
  simp; omega

theorem not_rw_testBit (i : Nat) : NOT_PAGE_RW.testBit i = (decide (i < 32) && decide (i ≠ 1)) := by
  by_cases h : i < 32
  · interval_cases i <;> decide
  · have : NOT_PAGE_RW < 2 ^ i := by
      calc NOT_PAGE_RW < 2 ^ 32 := by decide
        _ ≤ 2 ^ i := Nat.pow_le_pow_right (by decide) (by omega)
    rw [Nat.testBit_eq_false_of_lt this]
    simp [h]

/-- Clearing `_PAGE_RW` in a leaf entry leaves the frame address with the
flags present and accessed. -/
theorem l1_val_readonly (x : Nat) :
    (shl_page x ||| L1_PROT) &&& NOT_PAGE_RW =
      shl_page x ||| _PAGE_PRESENT ||| _PAGE_ACCESSED := by
  apply Nat.eq_of_testBit_eq
  intro i
  simp only [Nat.testBit_and, Nat.testBit_or, not_rw_testBit]
  by_cases h : i < 32
  · by_cases h1 : i = 1
    · subst h1
      simp [shl_page_testBit_low x (by decide : 1 < 12)]
      decide
    · have e : L1_PROT.testBit i = (_PAGE_PRESENT.testBit i || _PAGE_ACCESSED.testBit i) := by
        interval_cases i <;> first | decide | exact absurd rfl h1
      simp [h, h1, e, Bool.or_assoc]
  · have hs : (shl_page x).testBit i = false :=
      Nat.testBit_eq_false_of_lt (lt_of_lt_of_le (shl_page_lt x)
        (by calc 4294967296 = 2 ^ 32 := by norm_num
              _ ≤ 2 ^ i := Nat.pow_le_pow_right (by decide) (by omega)))
    have hp : _PAGE_PRESENT.testBit i = false :=
      Nat.testBit_eq_false_of_lt (lt_of_lt_of_le (by decide : _PAGE_PRESENT < 2 ^ 32)
        (Nat.pow_le_pow_right (by decide) (by omega)))
    have ha : _PAGE_ACCESSED.testBit i = false :=
      Nat.testBit_eq_false_of_lt (lt_of_lt_of_le (by decide : _PAGE_ACCESSED < 2 ^ 32)
        (Nat.pow_le_pow_right (by decide) (by omega)))
    simp [h, hs, hp, ha]

theorem l1_val_lt {ps c pfn : Nat} (h : c < ps) : l1_val ps c pfn = shl_page pfn ||| L1_PROT := by
  unfold l1_val; rw [if_pos h]

theorem l1_val_ge {ps c pfn : Nat} (h : ¬ c < ps) :
    l1_val ps c pfn = shl_page pfn ||| _PAGE_PRESENT ||| _PAGE_ACCESSED := by
  unfold l1_val; rw [if_neg h, l1_val_readonly]

theorem rw_bit_set (x : Nat) : (shl_page x ||| L1_PROT).testBit 1 = true := by
  rw [Nat.testBit_or]; simp; right; decide

theorem rw_bit_clear (x : Nat) :
    (shl_page x ||| _PAGE_PRESENT ||| _PAGE_ACCESSED).testBit 1 = false := by
  have : (shl_page x).testBit 1 = false := shl_page_testBit_low x (by decide)
  simp [Nat.testBit_or, this]; decide

theorem present_bit_set (ps c pfn : Nat) : (l1_val ps c pfn).testBit 0 = true := by
  by_cases h : c < ps
  · rw [l1_val_lt h]; simp [Nat.testBit_or]; right; decide
  · rw [l1_val_ge h]; simp [Nat.testBit_or]; left; right; decide

theorem iter_out_eq (pa : Int → Nat) (tot vla c : Nat) :
    iter_out pa tot vla c =
      (if starts_leaf (l1_table_offset vla) c then [l2_req pa tot vla c] else []) ++
      (if c < tot then [l1_req pa tot vla c, mpt_req pa c] else []) := rfl

theorem mem_iter_out {pa : Int → Nat} {tot vla c : Nat} {e : Emitted} :
    e ∈ iter_out pa tot vla c ↔
      (starts_leaf (l1_table_offset vla) c ∧ e = l2_req pa tot vla c) ∨
      (c < tot ∧ (e = l1_req pa tot vla c ∨ e = mpt_req pa c)) := by
  rw [iter_out_eq]
  by_cases h1 : starts_leaf (l1_table_offset vla) c <;> by_cases h2 : c < tot <;>
    simp [h1, h2]

theorem mem_batch_upto {pa : Int → Nat} {tot vla n : Nat} {e : Emitted} :
    e ∈ batch_upto pa tot vla n ↔
      e = pin_req pa tot ∨ ∃ c, c < n ∧ e ∈ iter_out pa tot vla c := by
  unfold batch_upto
  simp [List.mem_flatMap]

theorem batch_upto_split (pa : Int → Nat) (tot vla : Nat) {c n : Nat} (h : c < n) :
    ∃ post, batch_upto pa tot vla n =
      batch_upto pa tot vla c ++ iter_out pa tot vla c ++ post := by
  induction n with
  | zero => omega
  | succ n ih =>
    rw [batch_upto_succ]
    by_cases hc : c = n
    · subst hc; exact ⟨[], by simp⟩
    · obtain ⟨post, hp⟩ := ih (by omega)
      exact ⟨post ++ iter_out pa tot vla n, by rw [hp]; simp⟩

theorem length_iter_out (pa : Int → Nat) (tot vla c : Nat) :
    (iter_out pa tot vla c).length =
      (if starts_leaf (l1_table_offset vla) c then 1 else 0) + (if c < tot then 2 else 0) := by
  rw [iter_out_eq]
  by_cases h1 : starts_leaf (l1_table_offset vla) c <;> by_cases h2 : c < tot <;>
    simp [h1, h2]

theorem length_batch_upto (pa : Int → Nat) (tot vla : Nat) :
    ∀ n, n ≤ tot + 1 → (batch_upto pa tot vla n).length =
      1 + leaves_before (l1_table_offset vla) n + 2 * min n tot := by
  intro n
  induction n with
  | zero => intro _; simp [batch_upto, leaves_before]
  | succ n ih =>
    intro hn
    rw [batch_upto_succ, List.length_append, ih (by omega), length_iter_out,
      leaves_before_succ _ _ (l1_table_offset_lt vla)]
    by_cases h2 : n < tot
    · rw [if_pos h2, Nat.min_eq_left (by omega), Nat.min_eq_left (by omega)]; omega
    · have : n = tot := by omega
      subst this
      rw [if_neg h2, Nat.min_eq_left (by omega), Nat.min_eq_right (by omega)]; omega

theorem site_of_mem_iter_out {pa : Int → Nat} {tot vla c : Nat} {e : Emitted}
    (h : e ∈ iter_out pa tot vla c) : e.site = .l2 c ∨ e.site = .l1 c ∨ e.site = .mpt c := by
  rcases mem_iter_out.mp h with ⟨_, rfl⟩ | ⟨_, rfl | rfl⟩
  · exact Or.inl rfl
  · exact Or.inr (Or.inl rfl)
  · exact Or.inr (Or.inr rfl)

theorem iter_out_sites_nodup (pa : Int → Nat) (tot vla c : Nat) :
    ((iter_out pa tot vla c).map Emitted.site).Nodup := by
  rw [iter_out_eq]
  by_cases h1 : starts_leaf (l1_table_offset vla) c <;> by_cases h2 : c < tot <;>
    simp [h1, h2, l2_req, l1_req, mpt_req]

/-- No statement of the loop writes two requests for the same page. -/
theorem batch_sites_nodup (pa : Int → Nat) (tot vla : Nat) :
    ∀ n, ((batch_upto pa tot vla n).map Emitted.site).Nodup := by
  intro n
  induction n with
  | zero => simp [batch_upto]
  | succ n ih =>
    rw [batch_upto_succ, List.map_append, List.nodup_append]
    refine ⟨ih, iter_out_sites_nodup pa tot vla n, ?_⟩
    intro s hs1 hs2
    obtain ⟨e1, he1, rfl⟩ := List.mem_map.mp hs1
    obtain ⟨e2, he2, hse⟩ := List.mem_map.mp hs2
    have h2 := site_of_mem_iter_out he2
    rcases mem_batch_upto.mp he1 with rfl | ⟨c, hc, hm⟩
    · rw [hse] at h2; simp [pin_req] at h2
    · have h1 := site_of_mem_iter_out hm
      rw [hse] at h2
      rcases h1 with h1 | h1 | h1 <;> rcases h2 with h2 | h2 | h2 <;>
        (rw [h1] at h2; simp at h2; try omega)

theorem batch_nodup (pa : Int → Nat) (tot vla n : Nat) : (batch_upto pa tot vla n).Nodup :=
  List.Nodup.of_map _ (batch_sites_nodup pa tot vla n)

theorem l1_ptr_mod4 (pa : Int → Nat) (tot vla c : Nat) : l1_ptr pa tot vla c % 4 = 0 := by
  simp only [l1_ptr, shl_page_eq, wrap_eq]; omega

theorem l2_ptr_mod4 (pa : Int → Nat) (tot vla c : Nat) : l2_ptr pa tot vla c % 4 = 0 := by
  simp only [l2_ptr, shl_page_eq, wrap_eq]; omega

theorem mpt_ptr_mod4 (x : Nat) : (shl_page x ||| PGREQ_MPT_UPDATE) % 4 = 1 := by
  rw [shl_page_or x _ (by decide)]
  have := shl_page_mod x
  simp only [PGREQ_MPT_UPDATE]; omega

theorem pin_ptr_mod4 (x : Nat) : (shl_page x ||| PGREQ_EXTENDED_COMMAND) % 4 = 2 := by
  rw [shl_page_or x _ (by decide)]
  have := shl_page_mod x
  simp only [PGREQ_EXTENDED_COMMAND]; omega

/-- Only the physical-to-machine statement writes a request whose `ptr`
carries the tag `PGREQ_MPT_UPDATE`. -/
theorem mpt_tag_only {pa : Int → Nat} {tot vla n : Nat} {e : Emitted}
    (he : e ∈ batch_upto pa tot vla n) (ht : e.req.ptr % 4 = PGREQ_MPT_UPDATE) :
    ∃ c, c < tot ∧ c < n ∧ e = mpt_req pa c := by
  rcases mem_batch_upto.mp he with rfl | ⟨c, hc, hm⟩
  · have := pin_ptr_mod4 (root_frame pa tot)
    simp only [pin_req, PGREQ_MPT_UPDATE] at ht
    omega
  · rcases mem_iter_out.mp hm with ⟨_, rfl⟩ | ⟨hct, rfl | rfl⟩
    · have := l2_ptr_mod4 pa tot vla c
      simp only [l2_req, PGREQ_MPT_UPDATE] at ht
      omega
    · have := l1_ptr_mod4 pa tot vla c
      simp only [l1_req, PGREQ_MPT_UPDATE] at ht
      omega
    · exact ⟨c, hct, hc, rfl⟩

theorem mem_batch_l1 (pa : Int → Nat) (tot vla : Nat) {c n : Nat} (hc : c < tot) (hn : c < n) :
    l1_req pa tot vla c ∈ batch_upto pa tot vla n :=
  mem_batch_upto.mpr (Or.inr ⟨c, hn, mem_iter_out.mpr (Or.inr ⟨hc, Or.inl rfl⟩)⟩)

theorem mem_batch_mpt (pa : Int → Nat) (tot vla : Nat) {c n : Nat} (hc : c < tot) (hn : c < n) :
    mpt_req pa c ∈ batch_upto pa tot vla n :=
  mem_batch_upto.mpr (Or.inr ⟨c, hn, mem_iter_out.mpr (Or.inr ⟨hc, Or.inr rfl⟩)⟩)

theorem mem_batch_l2 (pa : Int → Nat) (tot vla : Nat) {c n : Nat}
    (hs : starts_leaf (l1_table_offset vla) c) (hn : c < n) :
    l2_req pa tot vla c ∈ batch_upto pa tot vla n :=
  mem_batch_upto.mpr (Or.inr ⟨c, hn, mem_iter_out.mpr (Or.inl ⟨hs, rfl⟩)⟩)

/-- The request array holds the physical-to-machine request of page `c` once. -/
theorem mpt_count_one (pa : Int → Nat) (tot vla : Nat) {c : Nat} (hc : c < tot) :
    ((batch_upto pa tot vla (tot + 1)).map Emitted.req).count (mpt_req pa c).req = 1 := by
  rw [List.count, List.countP_map]
  have hcongr : ∀ e ∈ batch_upto pa tot vla (tot + 1),
      (((fun q => q == (mpt_req pa c).req) ∘ Emitted.req) e = true ↔
        (fun x => x == mpt_req pa c) e = true) := by
    intro e he
    simp only [Function.comp_apply, beq_iff_eq]
    constructor
    · intro heq
      have ht : e.req.ptr % 4 = PGREQ_MPT_UPDATE := by
        rw [heq]; exact mpt_ptr_mod4 _
      obtain ⟨c2, _, _, rfl⟩ := mpt_tag_only he ht
      have hv := congrArg page_update_request_t.val heq
      have : c2 = c := hv
      rw [this]
    · intro hh; rw [hh]
  rw [List.countP_congr hcongr]
  exact List.count_eq_one_of_mem (batch_nodup pa tot vla (tot + 1))
    (mem_batch_mpt pa tot vla hc (by omega))

theorem getD_lookup (pa : List Nat) {c : Nat} (h : c < pa.length) :
    pa[c]? = some (pa.getD c 0) := by
  rw [List.getD_eq_getElem?_getD, List.getElem?_eq_getElem h]
  rfl

theorem chunk_copies_succ (len : Nat) (bytes : List Nat) (base n : Nat) :
    chunk_copies len bytes base (n + 1) =
      chunk_copies len bytes base n ++ [(base + n, chunk len bytes n)] := by
  unfold chunk_copies
  rw [List.range_succ, List.map_append]
  rfl

/-- A copy loop that ends normally, from its state at chunk `a`. -/
theorem load_loop_spec {env : Env} {pa : List Nat} {len : Nat} {bytes : List Nat}
    {base : Nat} {cs : List (Nat × List Nat)}
    (hlen : len ≤ 4294963200) (hbase : 4096 * (base + chunk_count len) < 4294967296) :
    ∀ (fuel a : Nat) (s s2 : LoadState),
      load_loop env pa len fuel (4096 * a) s = (.ok, s2) →
      a ≤ chunk_count len →
      s.i = 4096 * (base + a) →
      s.stream = bytes.drop (min (4096 * a) len) →
      s.copies = cs ++ chunk_copies len bytes base a →
      s2.i = 4096 * (base + chunk_count len) ∧
      s2.stream = bytes.drop len ∧
      s2.copies = cs ++ chunk_copies len bytes base (chunk_count len) ∧
      (a < chunk_count len → len ≤ bytes.length) := by
  intro fuel
  induction fuel with
  | zero => intro a s s2 h; simp [load_loop] at h
  | succ fuel ih =>
    intro a s s2 h ha hi hs hc
    unfold load_loop at h
    unfold chunk_count PAGE_SIZE at *
    by_cases hj : 4096 * a < len
    · rw [if_pos hj] at h
      dsimp only at h
      by_cases hsz : (List.take (if len - 4096 * a < 4096 then len - 4096 * a else 4096)
          s.stream).length ≠ (if len - 4096 * a < 4096 then len - 4096 * a else 4096)
      · rw [if_pos hsz] at h; simp at h
      · rw [if_neg hsz] at h
        have hidx : s.i >>> PAGE_SHIFT = base + a := by
          rw [hi, Nat.shiftRight_eq_div_pow]
          simp only [PAGE_SHIFT]; omega
        rw [hidx] at h
        have hw : wrap (4096 * a + 4096) = 4096 * (a + 1) := by
          rw [wrap_eq]; omega
        have hwi : wrap (s.i + 4096) = 4096 * (base + (a + 1)) := by
          rw [wrap_eq, hi]; omega
        rw [hw, hwi] at h
        have hsize : (if len - 4096 * a < 4096 then len - 4096 * a else 4096) =
            min 4096 (len - 4096 * a) := by
          split_ifs <;> omega
        rw [hsize] at h hsz
        have hmin : min (4096 * a) len = 4096 * a := by omega
        rw [hmin] at hs
        have hlenb : min 4096 (len - 4096 * a) ≤ (bytes.drop (4096 * a)).length := by
          rw [← hs]
          by_contra hlt
          apply hsz
          rw [List.length_take]
          omega
        have hs2 : List.drop (min 4096 (len - 4096 * a)) s.stream =
            bytes.drop (min (4096 * (a + 1)) len) := by
          rw [hs, List.drop_drop]
          have e : 4096 * a + min 4096 (len - 4096 * a) = min (4096 * (a + 1)) len := by omega
          rw [e]
        have hc2 : s.copies ++ [(base + a, List.take (min 4096 (len - 4096 * a)) s.stream)] =
            cs ++ chunk_copies len bytes base (a + 1) := by
          rw [hc, chunk_copies_succ, List.append_assoc, hs]
          simp only [chunk, PAGE_SIZE]
        obtain ⟨r1, r2, r3, r4⟩ := ih (a + 1) _ s2 h (by omega) rfl hs2 hc2
        refine ⟨r1, r2, r3, fun _ => ?_⟩
        rw [List.length_drop] at hlenb
        by_cases hlast : a + 1 < (len + (4096 - 1)) / 4096
        · exact r4 hlast
        · omega
    · rw [if_neg hj] at h
      simp only [Prod.mk.injEq, true_and] at h
      subst h
      have ha2 : a = (len + (4096 - 1)) / 4096 := by omega
      have hmin : min (4096 * a) len = len := by omega
      rw [hmin] at hs
      refine ⟨by rw [hi, ha2], hs, by rw [hc, ha2], fun hlt => by omega⟩


/-- A copy loop with enough bytes to read ends normally. -/
theorem load_loop_runs {env : Env} {pa : List Nat} {len : Nat} {bytes : List Nat} {base : Nat}
    (hlen : len ≤ 4294963200) (hbase : 4096 * (base + chunk_count len) < 4294967296)
    (hbytes : len ≤ bytes.length) :
    ∀ (fuel a : Nat) (s : LoadState),
      a ≤ chunk_count len → chunk_count len - a < fuel →
      s.i = 4096 * (base + a) →
      s.stream = bytes.drop (min (4096 * a) len) →
      ∃ s2, load_loop env pa len fuel (4096 * a) s = (.ok, s2) := by
  intro fuel
  induction fuel with
  | zero => intro a s _ hf; omega
  | succ fuel ih =>
    intro a s ha hf hi hs
    unfold load_loop
    unfold chunk_count PAGE_SIZE at *
    by_cases hj : 4096 * a < len
    · rw [if_pos hj]
      dsimp only
      have hsize : (if len - 4096 * a < 4096 then len - 4096 * a else 4096) =
          min 4096 (len - 4096 * a) := by
        split_ifs <;> omega
      rw [hsize]
      have hmin : min (4096 * a) len = 4096 * a := by omega
      rw [hmin] at hs
      have htake : ¬ (List.take (min 4096 (len - 4096 * a)) s.stream).length ≠
          min 4096 (len - 4096 * a) := by
        rw [hs, List.length_take, List.length_drop]
        omega
      rw [if_neg htake]
      have hidx : s.i >>> PAGE_SHIFT = base + a := by
        rw [hi, Nat.shiftRight_eq_div_pow]
        simp only [PAGE_SHIFT]; omega
      rw [hidx]
      have hw : wrap (4096 * a + 4096) = 4096 * (a + 1) := by
        rw [wrap_eq]; omega
      have hwi : wrap (s.i + 4096) = 4096 * (base + (a + 1)) := by
        rw [wrap_eq, hi]; omega
      rw [hw, hwi]
      refine ih (a + 1) _ (by omega) (by omega) rfl ?_
      show List.drop (min 4096 (len - 4096 * a)) s.stream = _
      rw [hs, List.drop_drop]
      have e : 4096 * a + min 4096 (len - 4096 * a) = min (4096 * (a + 1)) len := by omega
      rw [e]
    · rw [if_neg hj]
      exact ⟨s, rfl⟩

theorem chunk_length_le (len : Nat) (bytes : List Nat) (t : Nat) :
    (chunk len bytes t).length ≤ PAGE_SIZE := by
  unfold chunk
  rw [List.length_take]
  omega

/-- The first `n` chunks, one after the other, are the first `min (4096 * n)
len` bytes. -/
theorem chunks_concat (len : Nat) (bytes : List Nat) (base : Nat) :
    ∀ n, (chunk_copies len bytes base n).flatMap (fun c => c.2) =
      bytes.take (min (4096 * n) len) := by
  intro n
  induction n with
  | zero => simp [chunk_copies]
  | succ n ih =>
    rw [chunk_copies_succ, List.flatMap_append, ih]
    simp only [List.flatMap_cons, List.flatMap_nil, List.append_nil, chunk, PAGE_SIZE]
    by_cases h : 4096 * n ≤ len
    · have e1 : min (4096 * n) len = 4096 * n := by omega
      have e2 : min (4096 * (n + 1)) len = 4096 * n + min 4096 (len - 4096 * n) := by omega
      rw [e1, e2, List.take_add]
    · have e1 : min (4096 * n) len = len := by omega
      have e2 : min (4096 * (n + 1)) len = len := by omega
      have e3 : min 4096 (len - 4096 * n) = 0 := by omega
      rw [e1, e2, e3]
      simp

theorem chunks_concat_all (len : Nat) (bytes : List Nat) (base : Nat) :
    (chunk_copies len bytes base (chunk_count len)).flatMap (fun c => c.2) = bytes.take len := by
  rw [chunks_concat]
  congr 1
  unfold chunk_count PAGE_SIZE
  omega

theorem mem_chunk_copies {len : Nat} {bytes : List Nat} {base n : Nat} {c : Nat × List Nat}
    (h : c ∈ chunk_copies len bytes base n) :
    ∃ t, t < n ∧ c = (base + t, chunk len bytes t) := by
  unfold chunk_copies at h
  obtain ⟨t, ht, rfl⟩ := List.mem_map.mp h
  exact ⟨t, List.mem_range.mp ht, rfl⟩

theorem length_chunk_copies (len : Nat) (bytes : List Nat) (base n : Nat) :
    (chunk_copies len bytes base n).length = n := by
  simp [chunk_copies]

/-- What an accepted header yields, for a file whose size `fstat` reports
correctly. -/
theorem read_kernel_header_ok {file : List Nat} {dom_size : Int} {sig_old addr_old : List Nat}
    {hdr : Header} (h12 : 12 ≤ file.length) (hlen : file.length < 2147483648)
    (h : read_kernel_header (some (file.length : Int)) file dom_size sig_old addr_old =
      .ok hdr) :
    file.take SIG_LEN = GUEST_SIG ∧
    ¬ wrap_int ((file.length : Int) * 2) > wrap_int (dom_size * 1024) ∧
    hdr.ksize = file.length - (SIG_LEN + SIZEOF_ULONG) ∧
    hdr.rest = file.drop (SIG_LEN + SIZEOF_ULONG) ∧
    hdr.load_addr = le_bytes ((file.drop SIG_LEN).take SIZEOF_ULONG) := by
  unfold read_kernel_header at h
  dsimp only at h
  by_cases hs : wrap_int ((file.length : Int) * 2) > wrap_int (dom_size * 1024)
  · rw [if_pos hs] at h; cases h
  · rw [if_neg hs] at h
    have hfill : fill_buffer SIG_LEN sig_old (file.take SIG_LEN) = file.take SIG_LEN := by
      unfold fill_buffer
      rw [List.take_append_of_le_length (by rw [List.length_take]; simp only [SIG_LEN]; omega)]
      rw [List.take_take]; simp
    have hfill2 : fill_buffer SIZEOF_ULONG addr_old ((file.drop SIG_LEN).take SIZEOF_ULONG) =
        (file.drop SIG_LEN).take SIZEOF_ULONG := by
      unfold fill_buffer
      rw [List.take_append_of_le_length (by
        rw [List.length_take, List.length_drop]; simp only [SIG_LEN, SIZEOF_ULONG]; omega)]
      rw [List.take_take]; simp
    rw [hfill, hfill2] at h
    by_cases hsig : file.take SIG_LEN ≠ GUEST_SIG
    · rw [if_pos hsig] at h; cases h
    · rw [if_neg hsig] at h
      simp only [Except.ok.injEq] at h
      subst h
      refine ⟨not_not.mp hsig, hs, ?_, ?_, rfl⟩
      · simp only [of_int, WORD, SIG_LEN, SIZEOF_ULONG]; omega
      · simp only [List.drop_drop, SIG_LEN, SIZEOF_ULONG]

/-- The two ways the ramdisk block ends normally. -/
theorem load_initrd_inv {env : Env} {pa : List Nat} {initrd : Option (List Nat)}
    {tot vla ksize : Nat} {k k2 : LoadState} {m : dom_meminfo_t}
    (h : load_initrd env pa initrd tot vla ksize k = (.ok, m, k2)) :
    (initrd = none ∧ m = meminfo_zero ∧ k2 = k) ∨
    (∃ bytes isize, initrd = some bytes ∧ env.initrd_stat = some isize ∧
      ¬ wrap (wrap (isize + ksize) * 2) > shl_page tot ∧
      m = { meminfo_zero with virt_mod_addr := wrap (vla + k.i), virt_mod_len := isize } ∧
      load_loop env pa isize (bytes.length + 1) 0 { k with stream := bytes } = (.ok, k2)) := by
  unfold load_initrd at h
  cases initrd with
  | none =>
    simp only [Prod.mk.injEq, true_and] at h
    exact Or.inl ⟨rfl, h.1.symm, h.2.symm⟩
  | some bytes =>
    right
    dsimp only at h
    cases hst : env.initrd_stat with
    | none => rw [hst] at h; simp at h
    | some isize =>
      rw [hst] at h
      dsimp only at h
      by_cases hc : wrap (wrap (isize + ksize) * 2) > shl_page tot
      · rw [if_pos hc] at h; simp at h
      · rw [if_neg hc] at h
        simp only [Prod.mk.injEq] at h
        obtain ⟨h1, h2, h3⟩ := h
        refine ⟨bytes, isize, rfl, rfl, hc, h2.symm, ?_⟩
        rw [← h1, ← h3]

theorem submissions_append (a b : List Effect) :
    submissions (a ++ b) = submissions a + submissions b := by
  unfold submissions; exact List.countP_append _ _ _

theorem submissions_map_pfn (env : Env) (w : World) (pfn : Nat) :
    submissions (map_pfn env w pfn).2.trace = submissions w.trace := by
  unfold map_pfn
  split_ifs
  · rfl
  · simp [submissions_append, submissions, is_pt_update]

theorem submissions_clear (env : Env) (w : World) (pfn : Nat) :
    submissions (clear_domain_page env w pfn).2.trace = submissions w.trace := by
  have hm := submissions_map_pfn env w pfn
  unfold clear_domain_page
  cases hmp : map_pfn env w pfn with
  | mk b w1 =>
    rw [hmp] at hm
    cases b
    · exact hm
    · simp only [submissions_append, hm]
      simp [submissions, is_pt_update]

theorem submissions_copy (env : Env) (w : World) (pfn : Nat) (page : List Nat) :
    submissions (copy_to_domain_page env w pfn page).2.trace = submissions w.trace := by
  have hm := submissions_map_pfn env w pfn
  unfold copy_to_domain_page
  cases hmp : map_pfn env w pfn with
  | mk b w1 =>
    rw [hmp] at hm
    cases b
    · exact hm
    · simp only [submissions_append, hm]
      simp [submissions, is_pt_update]

/-- The copy loops issue no page-table update. -/
theorem submissions_load_loop (env : Env) (pa : List Nat) (len : Nat) :
    ∀ (fuel j : Nat) (s : LoadState),
      submissions (load_loop env pa len fuel j s).2.w.trace = submissions s.w.trace := by
  intro fuel
  induction fuel with
  | zero => intro j s; rfl
  | succ fuel ih =>
    intro j s
    unfold load_loop
    by_cases hj : j < len
    · rw [if_pos hj]
      dsimp only
      generalize (if len - j < PAGE_SIZE then len - j else PAGE_SIZE) = size
      by_cases hsz : (List.take size s.stream).length ≠ size
      · rw [if_pos hsz]
      · rw [if_neg hsz, ih]
        exact submissions_copy _ _ _ _
    · rw [if_neg hj]

theorem submissions_load_initrd (env : Env) (pa : List Nat) (initrd : Option (List Nat))
    (tot vla ksize : Nat) (k : LoadState) :
    submissions (load_initrd env pa initrd tot vla ksize k).2.2.w.trace =
      submissions k.w.trace := by
  unfold load_initrd
  cases initrd with
  | none => rfl
  | some bytes =>
    dsimp only
    cases env.initrd_stat with
    | none => rfl
    | some isize =>
      dsimp only
      split_ifs
      · rfl
      · exact submissions_load_loop _ _ _ _ _ _

theorem submissions_new_l1 (env : Env) (pa : List Nat) (vla c : Nat) (s : PtState) :
    submissions (new_l1 env pa vla c s).2.w.trace = submissions s.w.trace := by
  unfold new_l1
  by_cases h1 : s.l1tab &&& (PAGE_SIZE - 1) = 0
  · rw [if_pos h1]
    dsimp only
    split_ifs
    · exact submissions_clear _ _ _
    · exact submissions_clear _ _ _
  · rw [if_neg h1]

/-- The page-table loop issues no page-table update. -/
theorem submissions_pt_loop (env : Env) (pa : List Nat) (tot vla ps : Nat) :
    ∀ (fuel c : Nat) (s : PtState),
      submissions (pt_loop env pa tot vla ps fuel c s).2.w.trace = submissions s.w.trace := by
  intro fuel
  induction fuel with
  | zero => intro c s; rfl
  | succ fuel ih =>
    intro c s
    unfold pt_loop
    by_cases h1 : c < wrap (tot + 1)
    · rw [if_pos h1]
      have hn := submissions_new_l1 env pa vla c s
      cases hnl : new_l1 env pa vla c s with
      | mk st s1 =>
        rw [hnl] at hn
        cases st with
        | ok =>
          dsimp only
          by_cases h2 : c = tot
          · rw [if_pos h2]; exact hn
          · rw [if_neg h2, ih]
            exact hn
        | error_out => exact hn
        | fault => exact hn
        | out_of_fuel => exact hn
    · rw [if_neg h1]

/-- A zeroing that does not fail has mapped the frame. -/
theorem clear_domain_page_mapped {env : Env} {w : World} {pfn : Nat}
    (h : ¬ (clear_domain_page env w pfn).1 < 0) : env.map_ok w.nmaps pfn = true := by
  unfold clear_domain_page map_pfn at h
  by_contra hm
  simp [hm] at h

theorem new_l1_mapped {env : Env} {pa : List Nat} {vla c : Nat} {s s1 : PtState}
    (h : new_l1 env pa vla c s = (.ok, s1))
    (hs : ∀ t ∈ s.table_idx, ∃ n, env.map_ok n (page_at env pa t) = true) :
    ∀ t ∈ s1.table_idx, ∃ n, env.map_ok n (page_at env pa t) = true := by
  unfold new_l1 at h
  by_cases h1 : s.l1tab &&& (PAGE_SIZE - 1) = 0
  · rw [if_pos h1] at h
    dsimp only at h
    by_cases h2 : (clear_domain_page env s.w (page_at env pa s.alloc_index)).1 < 0
    · rw [if_pos h2] at h; simp at h
    · rw [if_neg h2] at h
      simp only [Prod.mk.injEq, true_and] at h
      subst h
      intro t ht
      rcases List.mem_append.mp ht with ht | ht
      · exact hs t ht
      · rw [List.mem_singleton] at ht
        subst ht
        exact ⟨_, clear_domain_page_mapped h2⟩
  · rw [if_neg h1] at h
    simp only [Prod.mk.injEq, true_and] at h
    subst h
    exact hs

/-- Every table frame of a loop that ends normally was mapped for zeroing. -/
theorem pt_loop_mapped {env : Env} {pa : List Nat} {tot vla ps : Nat} :
    ∀ (fuel c : Nat) (s s2 : PtState),
      pt_loop env pa tot vla ps fuel c s = (.ok, s2) →
      (∀ t ∈ s.table_idx, ∃ n, env.map_ok n (page_at env pa t) = true) →
      ∀ t ∈ s2.table_idx, ∃ n, env.map_ok n (page_at env pa t) = true := by
  intro fuel
  induction fuel with
  | zero => intro c s s2 h; simp [pt_loop] at h
  | succ fuel ih =>
    intro c s s2 h hs
    unfold pt_loop at h
    by_cases h1 : c < wrap (tot + 1)
    · rw [if_pos h1] at h
      cases hnl : new_l1 env pa vla c s with
      | mk st s1 =>
        rw [hnl] at h
        cases st with
        | ok =>
          dsimp only at h
          have hm := new_l1_mapped hnl hs
          by_cases h2 : c = tot
          · rw [if_pos h2] at h
            simp only [Prod.mk.injEq, true_and] at h
            subst h
            exact hm
          · rw [if_neg h2] at h
            exact ih _ _ _ h hm
        | error_out => simp at h
        | fault => simp at h
        | out_of_fuel => simp at h
    · rw [if_neg h1] at h
      simp only [Prod.mk.injEq, true_and] at h
      subst h
      exact hs

/-- A run of `build_tables` either never calls the hypervisor and fails, or
calls it once, as its last effect, with the complete request array, after
mapping and zeroing every table frame. -/
theorem build_tables_sent {env : Env} {pa : List Nat} {tot vla : Nat} {m : dom_meminfo_t}
    {k : LoadState} {r : Run} (htot : tot < 2147483648)
    (hr : build_tables env pa tot vla m k = r) :
    (r.status ≠ .ok ∧ submissions r.w.trace = submissions k.w.trace) ∨
    (r.updates = batch_upto (page_at env pa) tot vla (tot + 1) ∧ env.pt_mlock_ok = true ∧
      (r.status = .ok ↔ env.pt_update_ok = true) ∧
      r.table_idx = (List.range (leaves_before (l1_table_offset vla) (tot + 1) + 1)).map
        (fun j => (tot : Int) - 1 - (j : Nat)) ∧
      (∀ t ∈ r.table_idx, ∃ n, env.map_ok n (page_at env pa t) = true) ∧
      ∃ w : World, submissions w.trace = submissions k.w.trace ∧
        r.w.trace = w.trace ++ [Effect.pt_update (r.updates.map Emitted.req)
          (to_int r.num_pgt_updates) env.pt_update_ok]) := by
  unfold build_tables at hr
  dsimp only at hr
  rw [to_int_pred htot] at hr
  generalize hp : page_at env pa ((tot : Int) - 1) = pfn at hr
  have hroot : pfn = root_frame (page_at env pa) tot := by unfold root_frame; exact hp.symm
  have hcl := submissions_clear env k.w pfn
  by_cases hc : (clear_domain_page env k.w pfn).1 < 0
  · rw [if_pos hc] at hr; subst hr
    exact Or.inl ⟨by simp [Run.early], hcl⟩
  · rw [if_neg hc] at hr
    have inv0 : LoopInv (page_at env pa) tot vla 0
          { l1tab := 0,
            l2tab := wrap (shl_page pfn + l2_table_offset vla * SIZEOF_L2_PGENTRY),
            alloc_index := (tot : Int) - 1 - 1,
            updates := [⟨.pin, ⟨shl_page pfn ||| PGREQ_EXTENDED_COMMAND, PGEXT_PIN_L2_TABLE⟩⟩],
            num_pgt_updates := 1,
            w := (clear_domain_page env k.w pfn).2,
            table_idx := [(tot : Int) - 1] } := by
      constructor
      · simp [leaves_before]; omega
      · simp [leaves_before, hroot, SIZEOF_L2_PGENTRY]
      · intro _; rfl
      · intro hs; exact absurd (Or.inl rfl) hs
      · simp [batch_upto, pin_req, hroot]
      · simp [leaves_before, List.range_succ]
    have htot1 : tot + 1 < WORD := by unfold WORD; omega
    have hsl := submissions_pt_loop env pa tot vla (pt_start tot vla) (tot + 2) 0
          { l1tab := 0,
            l2tab := wrap (shl_page pfn + l2_table_offset vla * SIZEOF_L2_PGENTRY),
            alloc_index := (tot : Int) - 1 - 1,
            updates := [⟨.pin, ⟨shl_page pfn ||| PGREQ_EXTENDED_COMMAND, PGEXT_PIN_L2_TABLE⟩⟩],
            num_pgt_updates := 1,
            w := (clear_domain_page env k.w pfn).2,
            table_idx := [(tot : Int) - 1] }
    dsimp only at hsl
    rw [hcl] at hsl
    cases hl : pt_loop env pa tot vla (pt_start tot vla) (tot + 2) 0
          { l1tab := 0,
            l2tab := wrap (shl_page pfn + l2_table_offset vla * SIZEOF_L2_PGENTRY),
            alloc_index := (tot : Int) - 1 - 1,
            updates := [⟨.pin, ⟨shl_page pfn ||| PGREQ_EXTENDED_COMMAND, PGEXT_PIN_L2_TABLE⟩⟩],
            num_pgt_updates := 1,
            w := (clear_domain_page env k.w pfn).2,
            table_idx := [(tot : Int) - 1] } with
    | mk st s =>
      rw [hl] at hr hsl
      dsimp only at hsl
      cases st with
      | ok =>
        obtain ⟨g1, _, g3⟩ := pt_loop_spec htot1 _ _ _ _ (Nat.zero_le _) inv0 hl
        have hmap := pt_loop_mapped _ _ _ _ hl (by
          intro t ht
          simp only [List.mem_singleton] at ht
          subst ht
          exact ⟨_, by rw [hp]; exact clear_domain_page_mapped hc⟩)
        dsimp only at hr
        subst hr
        dsimp only
        by_cases hml : env.pt_mlock_ok = true
        · right
          refine ⟨g1, hml, ?_, g3, hmap, s.w, hsl, ?_⟩
          · by_cases hu : env.pt_update_ok = true <;> simp [send_pgupdates, hml, hu]
          · simp [send_pgupdates, hml]
        · left
          simp [send_pgupdates, hml, hsl]
      | error_out => dsimp only at hr; subst hr; exact Or.inl ⟨by simp, hsl⟩
      | fault => dsimp only at hr; subst hr; exact Or.inl ⟨by simp, hsl⟩
      | out_of_fuel => dsimp only at hr; subst hr; exact Or.inl ⟨by simp, hsl⟩

/-- What every run of `setup_guestos` does about the hypervisor: it fails
without a page-table update call, or it got through the frame list, both
copy loops and the zeroing of every table frame and makes one call, as its
last effect, with the complete request array. -/
theorem setup_guestos_sent {env : Env} {kernel : List Nat} {initrd : Option (List Nat)}
    {tot vla ksize : Nat} {w0 : World} {r : Run} (htot : tot < 2147483648)
    (hr : setup_guestos env kernel initrd tot vla ksize w0 = r) :
    (r.status ≠ .ok ∧ submissions r.w.trace = submissions w0.trace) ∨
    (r.updates = batch_upto (page_at env (get_pfn_list env tot).2) tot vla (tot + 1) ∧
      env.pt_mlock_ok = true ∧
      (r.status = .ok ↔ env.pt_update_ok = true) ∧
      r.table_idx = (List.range (leaves_before (l1_table_offset vla) (tot + 1) + 1)).map
        (fun j => (tot : Int) - 1 - (j : Nat)) ∧
      (∀ t ∈ r.table_idx, ∃ n, env.map_ok n (page_at env (get_pfn_list env tot).2 t) = true) ∧
      of_int (get_pfn_list env tot).1 = tot ∧
      (∃ (k1 k2 : LoadState) (m : dom_meminfo_t),
        load_loop env (get_pfn_list env tot).2 ksize (kernel.length + 1) 0
          { i := 0, stream := kernel, w := w0, copies := [] } = (.ok, k1) ∧
        load_initrd env (get_pfn_list env tot).2 initrd tot vla ksize k1 = (.ok, m, k2)) ∧
      ∃ w : World, submissions w.trace = submissions w0.trace ∧
        r.w.trace = w.trace ++ [Effect.pt_update (r.updates.map Emitted.req)
          (to_int r.num_pgt_updates) env.pt_update_ok]) := by
  unfold setup_guestos at hr
  by_cases hd : env.devmem_ok = true
  swap
  · rw [if_pos (by simpa using hd)] at hr; subst hr
    exact Or.inl ⟨by simp [Run.early], rfl⟩
  rw [if_neg (by simpa using hd)] at hr
  by_cases hm : env.malloc_ok = true
  swap
  · rw [if_pos (by simpa using hm)] at hr; subst hr
    exact Or.inl ⟨by simp [Run.early], rfl⟩
  rw [if_neg (by simpa using hm)] at hr
  dsimp only at hr
  by_cases hg : of_int (get_pfn_list env tot).1 = tot
  swap
  · rw [if_pos hg] at hr; subst hr
    exact Or.inl ⟨by simp [Run.early], rfl⟩
  rw [if_neg (not_not.mpr hg)] at hr
  have hsk := submissions_load_loop env (get_pfn_list env tot).2 ksize (kernel.length + 1) 0
      { i := 0, stream := kernel, w := w0, copies := [] }
  cases hk : load_loop env (get_pfn_list env tot).2 ksize (kernel.length + 1) 0
      { i := 0, stream := kernel, w := w0, copies := [] } with
  | mk st k1 =>
    rw [hk] at hr hsk
    dsimp only at hsk
    cases st with
    | ok =>
      dsimp only at hr
      have hsi := submissions_load_initrd env (get_pfn_list env tot).2 initrd tot vla ksize k1
      cases hi : load_initrd env (get_pfn_list env tot).2 initrd tot vla ksize k1 with
      | mk st2 mk2 =>
        obtain ⟨m, k2⟩ := mk2
        rw [hi] at hr hsi
        dsimp only at hsi
        cases st2 with
        | ok =>
          dsimp only at hr
          rcases build_tables_sent htot hr with ⟨h1, h2⟩ | ⟨h1, h2, h3, h6, h7, w, h4, h5⟩
          · exact Or.inl ⟨h1, by rw [h2, hsi, hsk]⟩
          · exact Or.inr ⟨h1, h2, h3, h6, h7, hg, ⟨k1, k2, m, rfl, hi⟩, w,
              by rw [h4, hsi, hsk], h5⟩
        | error_out =>
          dsimp only at hr; subst hr
          exact Or.inl ⟨by simp [Run.early], by simp only [Run.early]; rw [hsi, hsk]⟩
        | fault =>
          dsimp only at hr; subst hr
          exact Or.inl ⟨by simp [Run.early], by simp only [Run.early]; rw [hsi, hsk]⟩
        | out_of_fuel =>
          dsimp only at hr; subst hr
          exact Or.inl ⟨by simp [Run.early], by simp only [Run.early]; rw [hsi, hsk]⟩
    | error_out =>
      dsimp only at hr; subst hr
      exact Or.inl ⟨by simp [Run.early], by simp only [Run.early]; exact hsk⟩
    | fault =>
      dsimp only at hr; subst hr
      exact Or.inl ⟨by simp [Run.early], by simp only [Run.early]; exact hsk⟩
    | out_of_fuel =>
      dsimp only at hr; subst hr
      exact Or.inl ⟨by simp [Run.early], by simp only [Run.early]; exact hsk⟩

/-- A header with a wrong signature is refused, with the format error when
`fstat` succeeds and the size check passes. -/
theorem read_kernel_header_bad_sig {st : Option Int} {file : List Nat} {dom_size : Int}
    {sig_old addr_old : List Nat} (h8 : 8 ≤ file.length) (hsig : file.take SIG_LEN ≠ GUEST_SIG) :
    ∃ e, read_kernel_header st file dom_size sig_old addr_old = .error e ∧
      ∀ n, st = some n → ¬ wrap_int (n * 2) > wrap_int (dom_size * 1024) →
        e = .bad_signature := by
  unfold read_kernel_header
  cases st with
  | none => exact ⟨.stat_failed, rfl, fun n hn => by cases hn⟩
  | some size =>
    dsimp only
    by_cases hs : wrap_int (size * 2) > wrap_int (dom_size * 1024)
    · rw [if_pos hs]
      exact ⟨.too_large, rfl, fun n hn hc => by cases hn; exact absurd hs hc⟩
    · rw [if_neg hs]
      have hfill : fill_buffer SIG_LEN sig_old (file.take SIG_LEN) = file.take SIG_LEN := by
        unfold fill_buffer
        rw [List.take_append_of_le_length (by rw [List.length_take]; simp only [SIG_LEN]; omega)]
        rw [List.take_take]; simp
      rw [hfill, if_pos hsig]
      exact ⟨.bad_signature, rfl, fun _ _ _ => rfl⟩

/-- A header error ends `main` with status 1 before `setup_guestos`. -/
theorem main_header_error {max_cmd_len : Nat} {sys : Sys} {argv : List (List Char)}
    {w0 : World} {file : List Nat} {e : HeaderError}
    (hargs : ¬ argv.length < 4) (hdom : atoi (argv.getD 1 []) ≠ 0)
    (htp : ¬ get_tot_pages sys < 0) (hfile : sys.kernel_file = some file)
    (he : read_kernel_header sys.kernel_stat file (wrap_int (get_tot_pages sys * 4))
      sys.sig_old sys.addr_old = .error e) :
    main max_cmd_len sys argv w0 = MainRun.exit1 w0 (some e) := by
  unfold main
  rw [if_neg hargs, if_neg hdom]
  dsimp only
  rw [if_neg htp, hfile]
  dsimp only
  rw [he]

/-- The iteration that took the leaf table of page `c`. -/
theorem leaf_start_exists (k c : Nat) (hk : k < 1024) :
    ∃ c0, c0 ≤ c ∧ starts_leaf k c0 ∧ (k + c0) / 1024 = (k + c) / 1024 := by
  by_cases h : (k + c) / 1024 = 0
  · exact ⟨0, Nat.zero_le _, Or.inl rfl, by omega⟩
  · refine ⟨1024 * ((k + c) / 1024) - k, by omega, Or.inr (by omega), by omega⟩

theorem l1_table_offset_add (vla c : Nat) :
    l1_table_offset (vla + c * PAGE_SIZE) = (l1_table_offset vla + c) % 1024 := by
  simp only [l1_table_offset_eq, PAGE_SIZE]; omega

theorem l2_table_offset_add (vla c : Nat) :
    l2_table_offset (vla + c * PAGE_SIZE) =
      l2_table_offset vla + (l1_table_offset vla + c) / 1024 := by
  simp only [l1_table_offset_eq, l2_table_offset_eq, PAGE_SIZE]; omega

theorem l1_ptr_eq (pa : Int → Nat) (tot vla c : Nat) :
    l1_ptr pa tot vla c = shl_page (leaf_frame pa tot vla c) +
      l1_table_offset (vla + c * PAGE_SIZE) * 4 := by
  rw [l1_table_offset_add]
  simp only [l1_ptr, shl_page_eq, wrap_eq]; omega

theorem l2_ptr_eq (pa : Int → Nat) (tot vla c : Nat)
    (h : vla + c * PAGE_SIZE < WORD) :
    l2_ptr pa tot vla c = shl_page (root_frame pa tot) +
      l2_table_offset (vla + c * PAGE_SIZE) * 4 := by
  rw [l2_table_offset_add]
  have hk := l1_table_offset_lt vla
  simp only [l1_table_offset_eq, l2_table_offset_eq, PAGE_SIZE, WORD] at *
  simp only [l2_ptr, shl_page_eq, wrap_eq, l1_table_offset_eq, l2_table_offset_eq]; omega

theorem site_l1_of_mem {pa : Int → Nat} {tot vla n : Nat} {e : Emitted} {i : Nat}
    (he : e ∈ batch_upto pa tot vla n) (hs : e.site = .l1 i) :
    i < tot ∧ i < n ∧ e = l1_req pa tot vla i := by
  rcases mem_batch_upto.mp he with rfl | ⟨c, hc, hm⟩
  · simp [pin_req] at hs
  · rcases mem_iter_out.mp hm with ⟨_, rfl⟩ | ⟨hct, rfl | rfl⟩
    · simp [l2_req] at hs
    · simp only [l1_req, Site.l1.injEq] at hs
      subst hs; exact ⟨hct, hc, rfl⟩
    · simp [mpt_req] at hs

theorem count_site_one {pa : Int → Nat} {tot vla n : Nat} {e : Emitted}
    (he : e ∈ batch_upto pa tot vla n) :
    ((batch_upto pa tot vla n).map Emitted.site).count e.site = 1 :=
  List.count_eq_one_of_mem (batch_sites_nodup pa tot vla n) (List.mem_map_of_mem _ he)

theorem site_rank_iter_out {pa : Int → Nat} {tot vla c : Nat} {e : Emitted}
    (h : e ∈ iter_out pa tot vla c) :
    3 * c + 1 ≤ site_rank e.site ∧ site_rank e.site ≤ 3 * c + 3 := by
  rcases mem_iter_out.mp h with ⟨_, rfl⟩ | ⟨_, rfl | rfl⟩ <;>
    simp [l2_req, l1_req, mpt_req, site_rank]

theorem site_rank_batch_le {pa : Int → Nat} {tot vla n : Nat} {e : Emitted}
    (h : e ∈ batch_upto pa tot vla n) : site_rank e.site ≤ 3 * n := by
  rcases mem_batch_upto.mp h with rfl | ⟨c, hc, hm⟩
  · simp [pin_req, site_rank]
  · have := (site_rank_iter_out hm).2
    omega

theorem iter_out_sorted (pa : Int → Nat) (tot vla c : Nat) :
    (iter_out pa tot vla c).Pairwise (fun a b => site_rank a.site < site_rank b.site) := by
  rw [iter_out_eq]
  by_cases h1 : starts_leaf (l1_table_offset vla) c <;> by_cases h2 : c < tot <;>
    simp [h1, h2, l2_req, l1_req, mpt_req, site_rank]

/-- The request array is in program order. -/
theorem batch_sorted (pa : Int → Nat) (tot vla n : Nat) :
    (batch_upto pa tot vla n).Pairwise (fun a b => site_rank a.site < site_rank b.site) := by
  induction n with
  | zero => simp [batch_upto]
  | succ n ih =>
    rw [batch_upto_succ, List.pairwise_append]
    refine ⟨ih, iter_out_sorted pa tot vla n, ?_⟩
    intro a ha b hb
    have := site_rank_batch_le ha
    have := (site_rank_iter_out hb).1
    omega

/-- Positions in the request array compare as the places in program order. -/
theorem batch_pos_lt_iff {pa : Int → Nat} {tot vla n i j : Nat} {a b : Emitted}
    (ha : (batch_upto pa tot vla n)[i]? = some a)
    (hb : (batch_upto pa tot vla n)[j]? = some b) :
    i < j ↔ site_rank a.site < site_rank b.site := by
  have hs := batch_sorted pa tot vla n
  rw [List.pairwise_iff_getElem] at hs
  obtain ⟨hi, rfl⟩ := List.getElem?_eq_some_iff.mp ha
  obtain ⟨hj, rfl⟩ := List.getElem?_eq_some_iff.mp hb
  constructor
  · intro hij; exact hs i j hi hj hij
  · intro hr
    by_contra hij
    rcases Nat.lt_or_eq_of_le (Nat.le_of_not_lt hij) with hlt | heq
    · have := hs j i hj hi hlt; omega
    · subst heq; omega

theorem site_l2_of_mem {pa : Int → Nat} {tot vla n : Nat} {e : Emitted} {i : Nat}
    (he : e ∈ batch_upto pa tot vla n) (hs : e.site = .l2 i) :
    starts_leaf (l1_table_offset vla) i ∧ i < n ∧ e = l2_req pa tot vla i := by
  rcases mem_batch_upto.mp he with rfl | ⟨c, hc, hm⟩
  · simp [pin_req] at hs
  · rcases mem_iter_out.mp hm with ⟨hst, rfl⟩ | ⟨hct, rfl | rfl⟩
    · simp only [l2_req, Site.l2.injEq] at hs
      subst hs; exact ⟨hst, hc, rfl⟩
    · simp [l1_req] at hs
    · simp [mpt_req] at hs

theorem leaf_start_le {k c0 c : Nat} (hs : starts_leaf k c0)
    (hj : (k + c0) / 1024 = (k + c) / 1024) : c0 ≤ c := by
  rcases hs with rfl | h
  · omega
  · omega

theorem chunk_copies_fst (len : Nat) (bytes : List Nat) (base n : Nat) :
    (chunk_copies len bytes base n).map Prod.fst = (List.range n).map (fun t => base + t) := by
  unfold chunk_copies
  rw [List.map_map]
  rfl

/-- The frame indices of the copy loops of a successful run: `0, 1, ...` up to
the number of kernel chunks plus the number of ramdisk chunks. -/
theorem setup_guestos_copies {env : Env} {kernel : List Nat} {initrd : Option (List Nat)}
    {tot vla ksize : Nat} {w0 : World} (htot : tot ≤ 1048576)
    (hks : ksize * 2 ≤ tot * 4096)
    (his : ∀ isize, initrd ≠ none → env.initrd_stat = some isize →
      (isize + ksize) * 2 ≤ tot * 4096)
    (h : (setup_guestos env kernel initrd tot vla ksize w0).status = .ok) :
    ∃ isz, ((initrd = none ∧ isz = 0) ∨ (initrd ≠ none ∧ env.initrd_stat = some isz)) ∧
      (isz + ksize) * 2 ≤ tot * 4096 ∧
      (setup_guestos env kernel initrd tot vla ksize w0).copies.map Prod.fst =
        List.range (chunk_count ksize + chunk_count isz) := by
  obtain ⟨k1, k2, m, _, _, _, hk1, hi1, hb⟩ := setup_guestos_inv rfl h
  obtain ⟨_, _, _, g7, _⟩ := build_tables_inv (by omega) hb h
  have hcc : chunk_count ksize * 4096 ≤ ksize + 4095 := by
    unfold chunk_count PAGE_SIZE; omega
  obtain ⟨r1, _, r3, _⟩ := @load_loop_spec _ _ _ kernel 0 []
    (by omega) (by omega) (kernel.length + 1) 0 _ k1 hk1 (Nat.zero_le _) rfl (by simp)
    (by simp [chunk_copies])
  rw [List.nil_append] at r3
  rw [Nat.zero_add] at r1
  rw [g7]
  rcases load_initrd_inv hi1 with ⟨hn, _, hk2⟩ | ⟨bytes, isize, hs, hst, _, _, hl⟩
  · subst hk2
    refine ⟨0, Or.inl ⟨hn, rfl⟩, by omega, ?_⟩
    rw [r3, chunk_copies_fst]
    simp [chunk_count, PAGE_SIZE]
  · have hacc := his isize (by rw [hs]; simp) hst
    have hci : chunk_count isize * 4096 ≤ isize + 4095 := by
      unfold chunk_count PAGE_SIZE; omega
    obtain ⟨_, _, q3, _⟩ := @load_loop_spec _ _ _ bytes (chunk_count ksize)
      k1.copies (by omega) (by omega) (bytes.length + 1) 0 _ k2 hl (Nat.zero_le _)
      (by simp [r1]) (by simp) (by simp [chunk_copies])
    refine ⟨isize, Or.inr ⟨by rw [hs]; simp, hst⟩, hacc, ?_⟩
    rw [q3, r3, List.map_append, chunk_copies_fst, chunk_copies_fst, List.range_add]
    simp

theorem wrap_int_id {x : Int} (h0 : -2147483648 ≤ x) (h1 : x < 2147483648) : wrap_int x = x := by
  unfold wrap_int to_int of_int WORD
  have e : ((4294967296 : Nat) : Int) = 4294967296 := rfl
  rw [e]
  have hm : 0 ≤ x % 4294967296 := Int.emod_nonneg _ (by omega)
  have hlt : x % 4294967296 < 4294967296 := Int.emod_lt_of_pos _ (by omega)
  have hnat : (((x % 4294967296).toNat % 4294967296 : Nat) : Int) = x % 4294967296 := by
    omega
  split_ifs with hc <;> omega

theorem to_int_small {n : Nat} (h : n < 2147483648) : to_int n = (n : Int) := by
  unfold to_int WORD
  rw [Nat.mod_eq_of_lt (by omega), if_pos h]

/-- The size check of `read_kernel_header` decides whether the size error is
returned. -/
theorem read_kernel_header_too_large {size : Int} {file : List Nat} {dom_size : Int}
    {sig_old addr_old : List Nat} :
    read_kernel_header (some size) file dom_size sig_old addr_old = .error .too_large ↔
      wrap_int (size * 2) > wrap_int (dom_size * 1024) := by
  unfold read_kernel_header
  dsimp only
  by_cases hc : wrap_int (size * 2) > wrap_int (dom_size * 1024)
  · rw [if_pos hc]; exact ⟨fun _ => hc, fun _ => rfl⟩
  · rw [if_neg hc]
    constructor
    · intro h
      split_ifs at h; simp at h
    · intro h; exact absurd h hc

/-- A read of `page_array[n]` inside the array yields the list element. -/
theorem page_at_int (env : Env) {pa : List Nat} {i : Int} {n : Nat} (hi : i = (n : Int))
    (h : n < pa.length) :
    page_at env pa i = pa.getD n 0 ∧ pa[n]? = some (page_at env pa i) := by
  subst hi
  rw [page_at_nat env h]
  exact ⟨rfl, getD_lookup pa h⟩

/-- The table pages fit the domain: the bound in terms of the leaf-table
offset. -/
theorem fit_bound {tot vla : Nat} (htot : tot < 2147483648)
    (hfit : num_pt_pages tot vla ≤ (tot : Int)) :
    (l1_table_offset vla + tot) / 1024 + 2 ≤ tot := by
  rw [num_pt_pages_eq vla (by omega)] at hfit
  exact_mod_cast hfit

/-- A domain of at least three frames holds its table pages. -/
theorem fit_of_three {tot : Nat} (vla : Nat) (h3 : 3 ≤ tot) (htot : tot < 2147483648) :
    num_pt_pages tot vla ≤ (tot : Int) := by
  have hk := l1_table_offset_lt vla
  rw [num_pt_pages_eq vla (by omega)]
  have : (l1_table_offset vla + tot) / 1024 + 2 ≤ tot := by omega
  exact_mod_cast this

/-! ## Claims -/

/-- C13: a run of `setup_guestos` that returns 0 (any kernel size, with or
without a ramdisk) leaves `virt_shinfo_addr = virt_load_addr + tot_pages *
PAGE_SIZE` in word arithmetic and `l2_pgt_addr = page_array[tot_pages - 1] <<
PAGE_SHIFT`, where `page_array[tot_pages - 1]` is the last frame of the list
whenever the domain has a frame. -/
theorem shinfo_address (env : Env) (kernel : List Nat) (initrd : Option (List Nat))
    (tot vla ksize : Nat) (w0 : World) (htot : tot < 2147483648)
    (h : (setup_guestos env kernel initrd tot vla ksize w0).status = .ok) :
    (setup_guestos env kernel initrd tot vla ksize w0).meminfo.virt_shinfo_addr =
      wrap (vla + tot * PAGE_SIZE) ∧
    (setup_guestos env kernel initrd tot vla ksize w0).meminfo.l2_pgt_addr =
      shl_page (page_at env (get_pfn_list env tot).2 ((tot : Int) - 1)) ∧
    (0 < tot → ∃ pfn, (get_pfn_list env tot).2[tot - 1]? = some pfn ∧
      (setup_guestos env kernel initrd tot vla ksize w0).meminfo.l2_pgt_addr = shl_page pfn) := by
  obtain ⟨k1, k2, m, _, _, hg, _, _, hb⟩ := setup_guestos_inv rfl h
  obtain ⟨_, _, _, _, g8, _⟩ := build_tables_inv htot hb h
  have hlen := get_pfn_list_full htot hg
  rw [g8]
  refine ⟨?_, rfl, fun hpos => ?_⟩
  · simp only [shl_page_eq, wrap_eq, PAGE_SIZE]; omega
  · exact ⟨_, (page_at_int env (by omega : (tot : Int) - 1 = ((tot - 1 : Nat) : Int))
      (by omega)).2, rfl⟩

/-- C13 at `tot_pages = 16` with a kernel of three pages and no ramdisk: the
shared-info address is `virt_load_addr + 16 * PAGE_SIZE`. -/
theorem shinfo_address_witness :
    (setup_guestos (demo_env 16) (List.replicate 12288 7) none 16 3221225472 12288
        world0).status = .ok ∧
    (setup_guestos (demo_env 16) (List.replicate 12288 7) none 16 3221225472 12288
        world0).meminfo.virt_shinfo_addr = 3221225472 + 16 * 4096 :=
  ⟨by decide!,
   (shinfo_address (demo_env 16) (List.replicate 12288 7) none 16 3221225472 12288 world0
      (by decide) (by decide!)).1⟩

/-- C17: when `tot_pages >= num_pt_pages + 2`, a run of `setup_guestos` that
returns 0 ends with the cursor at `pt_start - 1` and sets
`virt_startinfo_addr = virt_load_addr + (alloc_index - 1) * PAGE_SIZE`, the
address of guest page `pt_start - 2`; that page is below every table frame
and its leaf entry has the writable bit set. -/
theorem startinfo_address (env : Env) (kernel : List Nat) (initrd : Option (List Nat))
    (tot vla ksize : Nat) (w0 : World) (htot : tot < 2147483648)
    (h : (setup_guestos env kernel initrd tot vla ksize w0).status = .ok)
    (hbig : num_pt_pages tot vla + 2 ≤ (tot : Int)) :
    (setup_guestos env kernel initrd tot vla ksize w0).alloc_index =
      (pt_start tot vla : Int) - 1 ∧
    (setup_guestos env kernel initrd tot vla ksize w0).meminfo.virt_startinfo_addr =
      wrap (vla + ((setup_guestos env kernel initrd tot vla ksize w0).alloc_index - 1).toNat *
        PAGE_SIZE) ∧
    (setup_guestos env kernel initrd tot vla ksize w0).meminfo.virt_startinfo_addr =
      wrap (vla + (pt_start tot vla - 2) * PAGE_SIZE) ∧
    2 ≤ pt_start tot vla ∧
    (∀ a ∈ (setup_guestos env kernel initrd tot vla ksize w0).table_idx,
      ((pt_start tot vla - 2 : Nat) : Int) < a) ∧
    ∃ pfn, (get_pfn_list env tot).2[pt_start tot vla - 2]? = some pfn ∧
      (⟨.l1 (pt_start tot vla - 2),
        ⟨l1_ptr (page_at env (get_pfn_list env tot).2) tot vla (pt_start tot vla - 2),
         shl_page pfn ||| L1_PROT⟩⟩ : Emitted) ∈
        (setup_guestos env kernel initrd tot vla ksize w0).updates ∧
      (shl_page pfn ||| L1_PROT).testBit 1 = true := by
  obtain ⟨k1, k2, m, _, _, hg, _, _, hb⟩ := setup_guestos_inv rfl h
  obtain ⟨g1, g2, g3, _, g8, _⟩ := build_tables_inv htot hb h
  have hlen : (get_pfn_list env tot).2.length = tot := get_pfn_list_full htot hg
  have g6 : tot < 2147483649 := by omega
  rw [leaves_before_last] at g2 g3 g8
  have hnp := num_pt_pages_eq vla g6
  rw [hnp] at hbig
  have hps := pt_start_eq vla g6 (by omega)
  have hps2 : 2 ≤ pt_start tot vla := by omega
  refine ⟨?_, ?_, ?_, hps2, ?_, ?_⟩
  · rw [g2, hps]; omega
  · rw [g8, g2]
    simp only [wrap_eq, of_int, WORD, PAGE_SIZE]
    omega
  · rw [g8, hps]
    simp only [wrap_eq, of_int, WORD, PAGE_SIZE]
    omega
  · intro a ha
    rw [g3] at ha
    obtain ⟨j, hj, rfl⟩ := List.mem_map.mp ha
    have := List.mem_range.mp hj
    omega
  · refine ⟨page_at env (get_pfn_list env tot).2 ((pt_start tot vla - 2 : Nat) : Int),
      (page_at_int env rfl (by omega)).2, ?_, rw_bit_set _⟩
    rw [g1]
    have hm := mem_batch_l1 (page_at env (get_pfn_list env tot).2) tot vla
      (c := pt_start tot vla - 2) (n := tot + 1) (by omega) (by omega)
    rw [l1_req, l1_val_lt (by omega)] at hm
    exact hm

/-- C17 at `tot_pages = 16`: the start-info page is guest page 12, just
below the table frames 14 and 15 and the cursor's final position 13. -/
theorem startinfo_address_witness :
    (setup_guestos (demo_env 16) [1, 2, 3] none 16 3221225472 3 world0).status = .ok ∧
    num_pt_pages 16 3221225472 + 2 ≤ (16 : Int) ∧
    (setup_guestos (demo_env 16) [1, 2, 3] none 16 3221225472 3 world0).alloc_index = 13 ∧
    (setup_guestos (demo_env 16) [1, 2, 3] none 16 3221225472 3
      world0).meminfo.virt_startinfo_addr = 3221225472 + 12 * 4096 :=
  ⟨by decide, by decide,
   (startinfo_address (demo_env 16) [1, 2, 3] none 16 3221225472 3 world0
      (by decide) (by decide) (by decide)).1,
   (startinfo_address (demo_env 16) [1, 2, 3] none 16 3221225472 3 world0
      (by decide) (by decide) (by decide)).2.2.1⟩

/-- C18: for a domain of at most `2 ^ 20` frames (what a 32-bit physical
address space holds), a run of `setup_guestos` that returns 0 has written
`1 + (num_pt_pages - 1) + 2 * tot_pages` requests, the counter
`num_pgt_updates` handed to `send_pgupdates` is that number, and it is within
the `3 * (tot_pages + 1024)` requests the array was allocated for. -/
theorem request_count (env : Env) (kernel : List Nat) (initrd : Option (List Nat))
    (tot vla ksize : Nat) (w0 : World) (htot : tot ≤ 1048576)
    (h : (setup_guestos env kernel initrd tot vla ksize w0).status = .ok) :
    ((setup_guestos env kernel initrd tot vla ksize w0).updates.length : Int) =
      1 + (num_pt_pages tot vla - 1) + 2 * (tot : Int) ∧
    (setup_guestos env kernel initrd tot vla ksize w0).num_pgt_updates =
      (setup_guestos env kernel initrd tot vla ksize w0).updates.length ∧
    (∃ w : World, (setup_guestos env kernel initrd tot vla ksize w0).w.trace = w.trace ++
      [Effect.pt_update
        ((setup_guestos env kernel initrd tot vla ksize w0).updates.map Emitted.req)
        ((setup_guestos env kernel initrd tot vla ksize w0).updates.length : Int) true]) ∧
    pgt_capacity tot = 3 * (tot + 1024) ∧
    (setup_guestos env kernel initrd tot vla ksize w0).updates.length ≤ pgt_capacity tot := by
  obtain ⟨k1, k2, m, _, _, _, _, _, hb⟩ := setup_guestos_inv rfl h
  obtain ⟨g1, _, _, _, _, _, g10, w, g11⟩ := build_tables_inv (by omega) hb h
  have g6 : tot < 2147483649 := by omega
  have hk := l1_table_offset_lt vla
  have hlen := length_batch_upto (page_at env (get_pfn_list env tot).2) tot vla (tot + 1)
    (le_refl _)
  rw [← g1, leaves_before_last, Nat.min_eq_right (by omega)] at hlen
  have hcap : pgt_capacity tot = 3 * (tot + 1024) := by
    unfold pgt_capacity SIZEOF_PAGE_UPDATE_REQUEST wrap WORD
    omega
  have hnum : (setup_guestos env kernel initrd tot vla ksize w0).num_pgt_updates =
      (setup_guestos env kernel initrd tot vla ksize w0).updates.length := by
    rw [g10, hlen, wrap_eq]; omega
  refine ⟨?_, hnum, ⟨w, ?_⟩, hcap, ?_⟩
  · rw [num_pt_pages_eq vla g6, hlen]; omega
  · have hf : (setup_guestos env kernel initrd tot vla ksize w0).updates.length <
        2147483648 := by rw [hlen]; omega
    rw [g11, hnum]
    simp only [to_int, WORD]
    rw [Nat.mod_eq_of_lt (by omega), if_pos hf]
  · rw [hcap, hlen]; omega

/-- C18 at `tot_pages = 16`: 34 requests (one pin, one page-directory entry,
16 leaf entries, 16 physical-to-machine updates) in an array for 3120. -/
theorem request_count_witness :
    (setup_guestos (demo_env 16) [1, 2, 3] none 16 3221225472 3 world0).status = .ok ∧
    ((setup_guestos (demo_env 16) [1, 2, 3] none 16 3221225472 3 world0).updates.length : Int) =
      1 + (num_pt_pages 16 3221225472 - 1) + 2 * (16 : Int) ∧
    pgt_capacity 16 = 3120 :=
  ⟨by decide,
   (request_count (demo_env 16) [1, 2, 3] none 16 3221225472 3 world0
      (by decide) (by decide)).1,
   (request_count (demo_env 16) [1, 2, 3] none 16 3221225472 3 world0
      (by decide) (by decide)).2.2.2.1⟩

/-- C16: in a run of `setup_guestos` that returns 0, every page `count <
tot_pages` has exactly one request with `ptr = (page_array[count] << PAGE_SHIFT)
| PGREQ_MPT_UPDATE` and `val = count` in the submitted array, written right
after the leaf-entry request of `count`, and no other request carries the
tag `PGREQ_MPT_UPDATE` in the low two bits of `ptr`. -/
theorem mpt_updates (env : Env) (kernel : List Nat) (initrd : Option (List Nat))
    (tot vla ksize : Nat) (w0 : World) (htot : tot < 2147483648)
    (h : (setup_guestos env kernel initrd tot vla ksize w0).status = .ok) :
    (∀ count, count < tot → ∃ pfn, (get_pfn_list env tot).2[count]? = some pfn ∧
      ((setup_guestos env kernel initrd tot vla ksize w0).updates.map Emitted.req).count
        ⟨shl_page pfn ||| PGREQ_MPT_UPDATE, count⟩ = 1 ∧
      ∃ pre post leaf, (setup_guestos env kernel initrd tot vla ksize w0).updates =
        pre ++ ⟨.l1 count, leaf⟩ ::
          ⟨.mpt count, ⟨shl_page pfn ||| PGREQ_MPT_UPDATE, count⟩⟩ :: post) ∧
    (∀ e ∈ (setup_guestos env kernel initrd tot vla ksize w0).updates,
      e.req.ptr % 4 = PGREQ_MPT_UPDATE →
      ∃ count pfn, count < tot ∧ (get_pfn_list env tot).2[count]? = some pfn ∧
        e = ⟨.mpt count, ⟨shl_page pfn ||| PGREQ_MPT_UPDATE, count⟩⟩) := by
  obtain ⟨hlen, g1, _⟩ := setup_guestos_ok htot rfl h
  rw [g1]
  constructor
  · intro c hc
    refine ⟨page_at env (get_pfn_list env tot).2 (c : Int),
      (page_at_int env rfl (by omega)).2, mpt_count_one _ tot vla hc, ?_⟩
    obtain ⟨post, hp⟩ := batch_upto_split (page_at env (get_pfn_list env tot).2) tot vla
      (c := c) (n := tot + 1) (by omega)
    rw [hp, iter_out_eq, if_pos hc]
    refine ⟨batch_upto (page_at env (get_pfn_list env tot).2) tot vla c ++
      (if starts_leaf (l1_table_offset vla) c then
        [l2_req (page_at env (get_pfn_list env tot).2) tot vla c] else []), post,
      (l1_req (page_at env (get_pfn_list env tot).2) tot vla c).req, ?_⟩
    simp only [List.append_assoc, List.cons_append, List.nil_append]
    rfl
  · intro e he ht
    obtain ⟨c, hc, _, rfl⟩ := mpt_tag_only he ht
    exact ⟨c, _, hc, (page_at_int env rfl (by omega)).2, rfl⟩

/-- C16 at `tot_pages = 16`: page 5 has frame 261 and one request `(261 <<
12 | 1, 5)`. -/
theorem mpt_updates_witness :
    (setup_guestos (demo_env 16) [1, 2, 3] none 16 3221225472 3 world0).status = .ok ∧
    ∃ pfn, (get_pfn_list (demo_env 16) 16).2[5]? = some pfn ∧
      ((setup_guestos (demo_env 16) [1, 2, 3] none 16 3221225472 3
        world0).updates.map Emitted.req).count ⟨shl_page pfn ||| PGREQ_MPT_UPDATE, 5⟩ = 1 :=
  ⟨by decide,
   ((mpt_updates (demo_env 16) [1, 2, 3] none 16 3221225472 3 world0
      (by decide) (by decide)).1 5 (by decide)).imp (fun _ hp => ⟨hp.1, hp.2.1⟩)⟩

/-- C11: for a domain of at most `2 ^ 20` frames and a kernel image of at
least 12 and less than `2 ^ 30` bytes that `read_kernel_header` accepts, the
header read takes the 8 signature bytes and the 4 bytes of the load address,
`ksize` is the file length minus these 12 bytes, and the kernel loop of
`setup_guestos` then ends normally after `ceil(ksize / PAGE_SIZE)` reads of
at most `PAGE_SIZE` bytes each, which together are the whole payload, with
nothing of the stream left; each read is handed on with an index inside the
frame list. -/
theorem kernel_consumed (env : Env) (file sig_old addr_old pa : List Nat) (tot : Nat)
    (w0 : World) (hdr : Header)
    (htot : tot ≤ 1048576) (hpa : pa.length = tot)
    (h12 : 12 ≤ file.length) (hlen : file.length < 1073741824)
    (h : read_kernel_header (some (file.length : Int)) file (wrap_int ((tot : Int) * 4))
      sig_old addr_old = .ok hdr) :
    hdr.ksize = file.length - (SIG_LEN + SIZEOF_ULONG) ∧
    file = file.take (SIG_LEN + SIZEOF_ULONG) ++ hdr.rest ∧
    hdr.rest.length = hdr.ksize ∧
    ∃ k, load_loop env pa hdr.ksize (hdr.rest.length + 1) 0
        { i := 0, stream := hdr.rest, w := w0, copies := [] } = (.ok, k) ∧
      k.stream = [] ∧
      k.copies.length = chunk_count hdr.ksize ∧
      (∀ c ∈ k.copies, c.2.length ≤ PAGE_SIZE) ∧
      k.copies.flatMap (fun c => c.2) = hdr.rest ∧
      (∀ c ∈ k.copies, c.1 < pa.length) := by
  obtain ⟨_, hsz, hk, hr, _⟩ := read_kernel_header_ok h12 (by omega) h
  have hrl : hdr.rest.length = hdr.ksize := by
    rw [hr, hk, List.length_drop]
  have hbound : file.length * 2 ≤ tot * 4096 := by
    unfold wrap_int to_int of_int WORD at hsz
    simp only [gt_iff_lt, not_lt] at hsz
    split_ifs at hsz <;> omega
  have hks : hdr.ksize ≤ 4294963200 := by
    rw [hk]; simp only [SIG_LEN, SIZEOF_ULONG]; omega
  have hcc : chunk_count hdr.ksize ≤ tot := by
    rw [hk]; unfold chunk_count PAGE_SIZE; simp only [SIG_LEN, SIZEOF_ULONG]; omega
  have hbase : 4096 * (0 + chunk_count hdr.ksize) < 4294967296 := by
    unfold chunk_count PAGE_SIZE at hcc ⊢; omega
  have hfuel : chunk_count hdr.ksize - 0 < hdr.rest.length + 1 := by
    rw [hrl]; unfold chunk_count PAGE_SIZE; omega
  obtain ⟨k, hkrun⟩ := @load_loop_runs env pa _ hdr.rest _ hks hbase
    (le_of_eq hrl.symm) (hdr.rest.length + 1) 0
    { i := 0, stream := hdr.rest, w := w0, copies := [] } (Nat.zero_le _) hfuel rfl
    (by simp)
  obtain ⟨_, r2, r3, _⟩ := @load_loop_spec _ _ _ hdr.rest _ [] hks hbase
    (hdr.rest.length + 1) 0 _ k hkrun (Nat.zero_le _) rfl (by simp) (by simp [chunk_copies])
  rw [List.nil_append] at r3
  refine ⟨hk, ?_, hrl, k, hkrun, ?_, ?_, ?_, ?_, ?_⟩
  · rw [hr, List.take_append_drop]
  · rw [r2, ← hrl, List.drop_length]
  · rw [r3, length_chunk_copies]
  · intro c hc
    rw [r3] at hc
    obtain ⟨t, _, rfl⟩ := mem_chunk_copies hc
    exact chunk_length_le _ _ _
  · rw [r3, chunks_concat_all, ← hrl, List.take_length]
  · intro c hc
    rw [r3] at hc
    obtain ⟨t, ht, rfl⟩ := mem_chunk_copies hc
    simp only [Nat.zero_add]
    omega


/-- C11 on a 15-byte image in a domain of 16 frames: the header leaves the
three payload bytes, and the kernel loop reads them and reaches the end. -/
theorem kernel_consumed_witness :
    read_kernel_header (some (demo_image.length : Int)) demo_image (wrap_int ((16 : Nat) * 4))
      [] [] = .ok ⟨3221225472, 3, [1, 2, 3]⟩ ∧
    ∃ k, load_loop (demo_env 16) (demo_frames 16) 3 ([1, 2, 3].length + 1) 0
        { i := 0, stream := [1, 2, 3], w := world0, copies := [] } = (.ok, k) ∧
      k.stream = [] ∧ k.copies.length = chunk_count 3 :=
  ⟨rfl,
   (kernel_consumed (demo_env 16) demo_image [] [] (demo_frames 16) 16 world0
      ⟨3221225472, 3, [1, 2, 3]⟩ (by decide) (by decide) (by decide) (by decide)
      rfl).2.2.2.imp (fun _ hk => ⟨hk.1, hk.2.1, hk.2.2.1⟩)⟩

/-- C14 on a domain of 16 frames with a three-byte kernel and a two-byte
ramdisk, both accepted by the size checks.  When every `mmap` succeeds the
kernel chunk is copied to frame `page_array[0] = 256` and the ramdisk chunk to
frame `page_array[1] = 257`, and the layout records the module at
`virt_load_addr + PAGE_SIZE` with length 2.  When the second `mmap` fails,
`copy_to_domain_page` is still called with frame 257 and the ramdisk chunk,
but nothing is copied to frame 257; the layout records the module all the
same, the request array is submitted and `setup_guestos` returns 0. -/
theorem ramdisk_copy_not_made :
    (3 * 2 ≤ 16 * PAGE_SIZE ∧ (2 + 3) * 2 ≤ 16 * PAGE_SIZE) ∧
    ((setup_guestos (demo_env_rd 16 2) [1, 2, 3] (some [9, 9]) 16 3221225472 3
        world0).w.trace.take 2 = [Effect.copied 256 [1, 2, 3], Effect.copied 257 [9, 9]] ∧
      (setup_guestos (demo_env_rd 16 2) [1, 2, 3] (some [9, 9]) 16 3221225472 3
        world0).meminfo.virt_mod_addr = 3221225472 + PAGE_SIZE ∧
      (setup_guestos (demo_env_rd 16 2) [1, 2, 3] (some [9, 9]) 16 3221225472 3
        world0).meminfo.virt_mod_len = 2) ∧
    (get_pfn_list (second_map_fails_env 16 2) 16).2[1]? = some 257 ∧
    (setup_guestos (second_map_fails_env 16 2) [1, 2, 3] (some [9, 9]) 16 3221225472 3
      world0).copies = [(0, [1, 2, 3]), (1, [9, 9])] ∧
    (setup_guestos (second_map_fails_env 16 2) [1, 2, 3] (some [9, 9]) 16 3221225472 3
      world0).w.trace.take 4 =
      [Effect.copied 256 [1, 2, 3], Effect.map_failed 257, Effect.zeroed 271,
        Effect.zeroed 270] ∧
    Effect.copied 257 [9, 9] ∉
      (setup_guestos (second_map_fails_env 16 2) [1, 2, 3] (some [9, 9]) 16 3221225472 3
        world0).w.trace ∧
    (setup_guestos (second_map_fails_env 16 2) [1, 2, 3] (some [9, 9]) 16 3221225472 3
      world0).meminfo.virt_mod_addr = 3221225472 + PAGE_SIZE ∧
    (setup_guestos (second_map_fails_env 16 2) [1, 2, 3] (some [9, 9]) 16 3221225472 3
      world0).meminfo.virt_mod_len = 2 ∧
    submissions (setup_guestos (second_map_fails_env 16 2) [1, 2, 3] (some [9, 9]) 16
      3221225472 3 world0).w.trace = 1 ∧
    (setup_guestos (second_map_fails_env 16 2) [1, 2, 3] (some [9, 9]) 16 3221225472 3
      world0).status = .ok := by
  decide

/-- C15, as amended: when `main` gets as far as the header of a kernel image
of at least 8 bytes whose first 8 bytes are not `"XenoGues"`,
`read_kernel_header` fails, `main` exits with status 1, `setup_guestos` is
not called and the world is unchanged (no frame mapped or written, no update
built or submitted); the failure is the format error when `fstat` succeeds
and the size check passes. -/
theorem signature_rejection (max_cmd_len : Nat) (sys : Sys) (argv : List (List Char))
    (w0 : World) (file : List Nat)
    (hargs : ¬ argv.length < 4) (hdom : atoi (argv.getD 1 []) ≠ 0)
    (htp : ¬ get_tot_pages sys < 0) (hfile : sys.kernel_file = some file)
    (h8 : 8 ≤ file.length) (hsig : file.take SIG_LEN ≠ GUEST_SIG) :
    (main max_cmd_len sys argv w0).code = 1 ∧
    (main max_cmd_len sys argv w0).w = w0 ∧
    (main max_cmd_len sys argv w0).run = none ∧
    (∃ e, (main max_cmd_len sys argv w0).header_error = some e) ∧
    (∀ n, sys.kernel_stat = some n →
      ¬ wrap_int (n * 2) > wrap_int (wrap_int (get_tot_pages sys * 4) * 1024) →
      read_kernel_header sys.kernel_stat file (wrap_int (get_tot_pages sys * 4))
        sys.sig_old sys.addr_old = .error .bad_signature ∧
      (main max_cmd_len sys argv w0).header_error = some .bad_signature) := by
  obtain ⟨e, he, hbad⟩ := @read_kernel_header_bad_sig sys.kernel_stat _
    (wrap_int (get_tot_pages sys * 4)) sys.sig_old sys.addr_old h8 hsig
  rw [main_header_error hargs hdom htp hfile he]
  refine ⟨rfl, rfl, rfl, ⟨e, rfl⟩, fun n hn hc => ?_⟩
  have := hbad n hn hc
  subst this
  exact ⟨he, rfl⟩

/-- C15 on the image `bad_image`: `main` exits with status 1, the world is
unchanged, and the header error is the format error. -/
theorem signature_rejection_witness :
    (main 256 (demo_sys bad_image) demo_argv world0).code = 1 ∧
    (main 256 (demo_sys bad_image) demo_argv world0).w = world0 ∧
    (main 256 (demo_sys bad_image) demo_argv world0).header_error = some .bad_signature :=
  ⟨(signature_rejection 256 (demo_sys bad_image) demo_argv world0 bad_image
      (by decide) (by decide) (by decide) rfl (by decide) (by decide)).1,
   (signature_rejection 256 (demo_sys bad_image) demo_argv world0 bad_image
      (by decide) (by decide) (by decide) rfl (by decide) (by decide)).2.1,
   ((signature_rejection 256 (demo_sys bad_image) demo_argv world0 bad_image
      (by decide) (by decide) (by decide) rfl (by decide) (by decide)).2.2.2.2
      _ rfl (by decide)).2⟩

/-- C15 as stated fails: an image of 3000 zero bytes for a domain of one
page has a wrong signature, and `read_kernel_header` refuses it with the size
error, not the format error. -/
theorem signature_rejection_counterexample :
    (List.replicate 3000 0).take SIG_LEN ≠ GUEST_SIG ∧
    read_kernel_header (some 3000) (List.replicate 3000 0) (wrap_int (1 * 4)) [] [] =
      .error .too_large ∧
    read_kernel_header (some 3000) (List.replicate 3000 0) (wrap_int (1 * 4)) [] [] ≠
      .error .bad_signature :=
  ⟨by decide, rfl, by rw [show read_kernel_header (some 3000) (List.replicate 3000 0)
    (wrap_int (1 * 4)) [] [] = .error .too_large from rfl]; simp⟩

/-- C1, amended: in a run of `setup_guestos` that returns 0 on a domain that
holds its table pages (`num_pt_pages <= tot_pages`), `pt_start = tot_pages -
num_pt_pages`, the frames taken as table pages are exactly the indices from
`pt_start` to `tot_pages - 1`, and every page `i < tot_pages` has the leaf
entry `(page_array[i] << PAGE_SHIFT) | L1_PROT` when `i < pt_start` and
`(page_array[i] << PAGE_SHIFT) | _PAGE_PRESENT | _PAGE_ACCESSED` otherwise, so
that the writable bit is set exactly for `i < pt_start`. -/
theorem self_protection (env : Env) (kernel : List Nat) (initrd : Option (List Nat))
    (tot vla ksize : Nat) (w0 : World) (htot : tot < 2147483648)
    (h : (setup_guestos env kernel initrd tot vla ksize w0).status = .ok)
    (hfit : num_pt_pages tot vla ≤ (tot : Int)) :
    ((pt_start tot vla : Nat) : Int) = (tot : Int) - num_pt_pages tot vla ∧
    (∀ a : Int, a ∈ (setup_guestos env kernel initrd tot vla ksize w0).table_idx ↔
      (pt_start tot vla : Int) ≤ a ∧ a < (tot : Int)) ∧
    (∀ i, i < tot → ∃ pfn val, (get_pfn_list env tot).2[i]? = some pfn ∧
      (⟨.l1 i, ⟨l1_ptr (page_at env (get_pfn_list env tot).2) tot vla i, val⟩⟩ : Emitted) ∈
        (setup_guestos env kernel initrd tot vla ksize w0).updates ∧
      (i < pt_start tot vla → val = shl_page pfn ||| L1_PROT) ∧
      (pt_start tot vla ≤ i → val = shl_page pfn ||| _PAGE_PRESENT ||| _PAGE_ACCESSED) ∧
      (val.testBit 1 = true ↔ i < pt_start tot vla)) ∧
    (∀ e ∈ (setup_guestos env kernel initrd tot vla ksize w0).updates, ∀ i,
      e.site = .l1 i → e = l1_req (page_at env (get_pfn_list env tot).2) tot vla i) := by
  obtain ⟨hlen, g1, _, g3⟩ := setup_guestos_ok htot rfl h
  have g4 := fit_bound htot hfit
  have g6 : tot < 2147483649 := by omega
  rw [leaves_before_last] at g3
  have hnp := num_pt_pages_eq vla g6
  have hps := pt_start_eq vla g6 g4
  refine ⟨by rw [hnp, hps]; omega, ?_, ?_, ?_⟩
  · intro a
    rw [g3, hps, List.mem_map]
    constructor
    · rintro ⟨j, hj, rfl⟩
      have := List.mem_range.mp hj
      omega
    · rintro ⟨h1, h2⟩
      refine ⟨((tot : Int) - 1 - a).toNat, List.mem_range.mpr (by omega), by omega⟩
  · intro i hi
    refine ⟨page_at env (get_pfn_list env tot).2 (i : Int),
      l1_val (pt_start tot vla) i (page_at env (get_pfn_list env tot).2 (i : Int)),
      (page_at_int env rfl (by omega)).2, ?_, fun hlt => l1_val_lt hlt,
      fun hge => l1_val_ge (by omega), ?_⟩
    · rw [g1]
      exact mem_batch_l1 _ tot vla hi (by omega)
    · by_cases hlt : i < pt_start tot vla
      · rw [l1_val_lt hlt, rw_bit_set]; simp [hlt]
      · rw [l1_val_ge hlt, rw_bit_clear]; simp [hlt]
  · intro e he i hsite
    rw [g1] at he
    exact (site_l1_of_mem he hsite).2.2

/-- C1 at `tot_pages = 16`: `pt_start = 14`; index 14 is a table frame. -/
theorem self_protection_witness :
    (setup_guestos (demo_env 16) [1, 2, 3] none 16 3221225472 3 world0).status = .ok ∧
    num_pt_pages 16 3221225472 ≤ (16 : Int) ∧
    ((pt_start 16 3221225472 : Nat) : Int) = (16 : Int) - num_pt_pages 16 3221225472 ∧
    ((14 : Int) ∈ (setup_guestos (demo_env 16) [1, 2, 3] none 16 3221225472 3
        world0).table_idx ↔
      (pt_start 16 3221225472 : Int) ≤ 14 ∧ (14 : Int) < ((16 : Nat) : Int)) :=
  ⟨by decide, by decide,
   (self_protection (demo_env 16) [1, 2, 3] none 16 3221225472 3 world0
      (by decide) (by decide) (by decide)).1,
   (self_protection (demo_env 16) [1, 2, 3] none 16 3221225472 3 world0
      (by decide) (by decide) (by decide)).2.1 14⟩

/-- C1 as stated fails on a domain of one frame (frame 256, load address
`0xC0000000`): `num_pt_pages = 2` and `pt_start` wraps to `0xFFFFFFFF`; the
run returns 0; the only frame, index 0, was taken for the page directory
(`l2_pgt_addr = 256 << PAGE_SHIFT`); and the leaf-entry request of index 0
carries `(256 << PAGE_SHIFT) | L1_PROT`, with the writable bit set. -/
theorem self_protection_counterexample :
    (setup_guestos (demo_env 1) [] none 1 3221225472 0 world0).status = .ok ∧
    num_pt_pages 1 3221225472 = 2 ∧ pt_start 1 3221225472 = 4294967295 ∧
    (get_pfn_list (demo_env 1) 1).2 = [256] ∧
    (setup_guestos (demo_env 1) [] none 1 3221225472 0 world0).table_idx = [0, -1] ∧
    (setup_guestos (demo_env 1) [] none 1 3221225472 0 world0).meminfo.l2_pgt_addr = shl_page 256 ∧
    (⟨.l1 0, ⟨0, shl_page 256 ||| L1_PROT⟩⟩ : Emitted) ∈ (setup_guestos (demo_env 1) [] none 1 3221225472 0 world0).updates ∧
    (shl_page 256 ||| L1_PROT).testBit 1 = true := by
  decide

/-- C2: in a run of `setup_guestos` that returns 0 on a domain that holds its
table pages (`num_pt_pages <= tot_pages`) with a virtual range
`virt_load_addr .. virt_load_addr + (tot_pages + 1) * PAGE_SIZE` that does not
wrap, every page `count < tot_pages` with `va = virt_load_addr + count *
PAGE_SIZE` has exactly one leaf-entry request; a page-directory request
written no later targets slot `l2_table_offset(va)` of the root table and
installs the leaf frame `leaf`; the leaf-entry request targets `(leaf <<
PAGE_SHIFT) + l1_table_offset(va) * 4` and maps `page_array[count]` with the
present bit set.  No leaf-entry request is written for the shared-info page,
whose page-directory slot is installed. -/
theorem coverage (env : Env) (kernel : List Nat) (initrd : Option (List Nat))
    (tot vla ksize : Nat) (w0 : World)
    (h : (setup_guestos env kernel initrd tot vla ksize w0).status = .ok)
    (hnowrap : vla + (tot + 1) * PAGE_SIZE ≤ WORD)
    (hfit : num_pt_pages tot vla ≤ (tot : Int)) :
    (∃ root, (get_pfn_list env tot).2[tot - 1]? = some root ∧
      (∀ count, count < tot →
        ((setup_guestos env kernel initrd tot vla ksize w0).updates.map Emitted.site).count
          (.l1 count) = 1 ∧
        ∃ pfn leaf c0 val, (get_pfn_list env tot).2[count]? = some pfn ∧
          (get_pfn_list env tot).2[tot - 2 - (l1_table_offset vla + count) / 1024]? =
            some leaf ∧
          c0 ≤ count ∧
          (⟨.l2 c0, ⟨shl_page root + l2_table_offset (vla + count * PAGE_SIZE) * 4,
              (shl_page leaf + l1_table_offset (vla + c0 * PAGE_SIZE) * 4) ||| L2_PROT⟩⟩ :
            Emitted) ∈ (setup_guestos env kernel initrd tot vla ksize w0).updates ∧
          (⟨.l1 count, ⟨shl_page leaf + l1_table_offset (vla + count * PAGE_SIZE) * 4,
              val⟩⟩ : Emitted) ∈ (setup_guestos env kernel initrd tot vla ksize w0).updates ∧
          (val = shl_page pfn ||| L1_PROT ∨
            val = shl_page pfn ||| _PAGE_PRESENT ||| _PAGE_ACCESSED) ∧
          val.testBit 0 = true) ∧
      ∃ leaf c0, c0 ≤ tot ∧
        (⟨.l2 c0, ⟨shl_page root + l2_table_offset (vla + tot * PAGE_SIZE) * 4,
            (shl_page leaf + l1_table_offset (vla + c0 * PAGE_SIZE) * 4) ||| L2_PROT⟩⟩ :
          Emitted) ∈ (setup_guestos env kernel initrd tot vla ksize w0).updates) ∧
    (∀ e ∈ (setup_guestos env kernel initrd tot vla ksize w0).updates, e.site ≠ .l1 tot) := by
  have hnw : vla + (tot + 1) * 4096 ≤ 4294967296 := hnowrap
  have ht31 : tot < 2147483648 := by omega
  obtain ⟨hlen, g1, _, _⟩ := setup_guestos_ok ht31 rfl h
  have g4 := fit_bound ht31 hfit
  have hk := l1_table_offset_lt vla
  rw [g1]
  have hl2 : ∀ c c0, c ≤ tot → c0 ≤ c →
      (l1_table_offset vla + c0) / 1024 = (l1_table_offset vla + c) / 1024 →
      starts_leaf (l1_table_offset vla) c0 →
      (⟨.l2 c0, ⟨shl_page (root_frame (page_at env (get_pfn_list env tot).2) tot) +
          l2_table_offset (vla + c * PAGE_SIZE) * 4,
        (shl_page (leaf_frame (page_at env (get_pfn_list env tot).2) tot vla c) +
          l1_table_offset (vla + c0 * PAGE_SIZE) * 4) ||| L2_PROT⟩⟩ : Emitted) ∈
        batch_upto (page_at env (get_pfn_list env tot).2) tot vla (tot + 1) := by
    intro c c0 hc hc0 hj hs
    have hm := mem_batch_l2 (page_at env (get_pfn_list env tot).2) tot vla hs (by omega : c0 < tot + 1)
    rw [l2_req, l1_ptr_eq, l2_ptr_eq _ _ _ _ (by show vla + c0 * 4096 < 4294967296; omega)] at hm
    have e1 : l2_table_offset (vla + c0 * PAGE_SIZE) = l2_table_offset (vla + c * PAGE_SIZE) := by
      rw [l2_table_offset_add, l2_table_offset_add, hj]
    have e2 : leaf_frame (page_at env (get_pfn_list env tot).2) tot vla c0 =
        leaf_frame (page_at env (get_pfn_list env tot).2) tot vla c := by
      unfold leaf_frame; rw [hj]
    rw [e1, e2] at hm
    exact hm
  have hleaf : ∀ c, c ≤ tot →
      (get_pfn_list env tot).2[tot - 2 - (l1_table_offset vla + c) / 1024]? =
        some (leaf_frame (page_at env (get_pfn_list env tot).2) tot vla c) := by
    intro c hc
    unfold leaf_frame
    exact (page_at_int env (by omega) (by omega)).2
  refine ⟨⟨root_frame (page_at env (get_pfn_list env tot).2) tot, ?_, ?_, ?_⟩, ?_⟩
  · unfold root_frame
    exact (page_at_int env (by omega) (by omega)).2
  · intro c hc
    have hm := mem_batch_l1 (page_at env (get_pfn_list env tot).2) tot vla hc (by omega : c < tot + 1)
    refine ⟨count_site_one hm, ?_⟩
    obtain ⟨c0, hc0, hs, hj⟩ := leaf_start_exists (l1_table_offset vla) c hk
    refine ⟨page_at env (get_pfn_list env tot).2 (c : Int),
      leaf_frame (page_at env (get_pfn_list env tot).2) tot vla c, c0,
      l1_val (pt_start tot vla) c (page_at env (get_pfn_list env tot).2 (c : Int)),
      (page_at_int env rfl (by omega)).2, hleaf c (by omega), hc0,
      hl2 c c0 (by omega) hc0 hj hs, ?_, ?_, present_bit_set _ _ _⟩
    · rw [l1_req, l1_ptr_eq] at hm
      exact hm
    · by_cases hlt : c < pt_start tot vla
      · exact Or.inl (l1_val_lt hlt)
      · exact Or.inr (l1_val_ge hlt)
  · obtain ⟨c0, hc0, hs, hj⟩ := leaf_start_exists (l1_table_offset vla) tot hk
    exact ⟨leaf_frame (page_at env (get_pfn_list env tot).2) tot vla tot, c0, hc0,
      hl2 tot c0 (le_refl _) hc0 hj hs⟩
  · intro e he hs
    have := (site_l1_of_mem he hs).1
    omega

/-- C2 at `tot_pages = 16`, `virt_load_addr = 0xC0000000`: the run returns 0,
the range does not wrap, and page 5 has exactly one leaf-entry request. -/
theorem coverage_witness :
    (setup_guestos (demo_env 16) [1, 2, 3] none 16 3221225472 3 world0).status = .ok ∧
    3221225472 + (16 + 1) * PAGE_SIZE ≤ WORD ∧
    num_pt_pages 16 3221225472 ≤ (16 : Int) ∧
    ((setup_guestos (demo_env 16) [1, 2, 3] none 16 3221225472 3 world0).updates.map
      Emitted.site).count (.l1 5) = 1 := by
  refine ⟨by decide, by decide, by decide, ?_⟩
  obtain ⟨⟨_, _, hc, _⟩, _⟩ := coverage (demo_env 16) [1, 2, 3] none 16 3221225472 3 world0
    (by decide) (by decide) (by decide)
  exact (hc 5 (by decide)).1

/-- C3, amended: in a run of `setup_guestos` that returns 0 on a domain that
holds its table pages (`num_pt_pages <= tot_pages`), the allocation cursor
took the frame indices `tot_pages - 1, tot_pages - 2, ..., pt_start` in that
order, each once; their number is `num_pt_pages =
(l1_table_offset(virt_load_addr) + tot_pages + 1024) / 1024 + 1`; the cursor
finishes at `pt_start - 1`; and every index taken lies in `[pt_start,
tot_pages)` and is a valid index of the frame list. -/
theorem backward_cursor (env : Env) (kernel : List Nat) (initrd : Option (List Nat))
    (tot vla ksize : Nat) (w0 : World) (htot : tot < 2147483648)
    (h : (setup_guestos env kernel initrd tot vla ksize w0).status = .ok)
    (hfit : num_pt_pages tot vla ≤ (tot : Int)) :
    num_pt_pages tot vla =
      (((l1_table_offset vla + tot + 1024) / 1024 + 1 : Nat) : Int) ∧
    ((pt_start tot vla : Nat) : Int) = (tot : Int) - num_pt_pages tot vla ∧
    (setup_guestos env kernel initrd tot vla ksize w0).table_idx =
      (List.range (tot - pt_start tot vla)).map (fun (j : Nat) => (tot : Int) - 1 - (j : Int)) ∧
    (((setup_guestos env kernel initrd tot vla ksize w0).table_idx.length : Nat) : Int) =
      num_pt_pages tot vla ∧
    (setup_guestos env kernel initrd tot vla ksize w0).table_idx.Nodup ∧
    (setup_guestos env kernel initrd tot vla ksize w0).alloc_index =
      ((pt_start tot vla : Nat) : Int) - 1 ∧
    (∀ i ∈ (setup_guestos env kernel initrd tot vla ksize w0).table_idx,
      ((pt_start tot vla : Nat) : Int) ≤ i ∧ i < (tot : Int) ∧
      0 ≤ i ∧ i.toNat < (get_pfn_list env tot).2.length) := by
  obtain ⟨hlen, _, g2, g3⟩ := setup_guestos_ok htot rfl h
  have g4 := fit_bound htot hfit
  have g6 : tot < 2147483649 := by omega
  rw [leaves_before_last] at g2 g3
  have hn := @num_pt_pages_eq tot vla g6
  have hp := @pt_start_eq tot vla g6 g4
  have hcnt : tot - pt_start tot vla = (l1_table_offset vla + tot) / 1024 + 1 + 1 := by omega
  have hdiv : (l1_table_offset vla + tot + 1024) / 1024 = (l1_table_offset vla + tot) / 1024 + 1 := by
    omega
  rw [g3, g2, hn, hcnt, hdiv]
  refine ⟨by push_cast; omega, by omega, rfl,
    by rw [List.length_map, List.length_range], ?_, by omega, ?_⟩
  · refine List.Nodup.map ?_ (List.nodup_range _)
    intro a b hab
    simp only at hab
    omega
  · intro i hi
    simp only [List.mem_map, List.mem_range] at hi
    obtain ⟨j, hj, rfl⟩ := hi
    refine ⟨by omega, by omega, by omega, by omega⟩

/-- C3 at `tot_pages = 16`, `virt_load_addr = 0xC0000000`: the run returns 0,
`num_pt_pages = 2`, `pt_start = 14`, and the cursor took indices 15 and 14. -/
theorem backward_cursor_witness :
    (setup_guestos (demo_env 16) [1, 2, 3] none 16 3221225472 3 world0).status = .ok ∧
    num_pt_pages 16 3221225472 = 2 ∧ pt_start 16 3221225472 = 14 ∧
    (setup_guestos (demo_env 16) [1, 2, 3] none 16 3221225472 3 world0).table_idx =
      (List.range (16 - pt_start 16 3221225472)).map (fun (j : Nat) => ((16 : Nat) : Int) - 1 - (j : Int)) :=
  ⟨by decide, by decide, by decide,
   (backward_cursor (demo_env 16) [1, 2, 3] none 16 3221225472 3 world0
      (by decide) (by decide) (by decide)).2.2.1⟩

/-- C3 as stated fails for a domain of one frame: `num_pt_pages = 2` exceeds
`tot_pages = 1`.  The run returns 0 after the cursor took index 0 for the
page directory and index -1, which is no index of the one-element frame list,
for the leaf table; the frame number read there is what the memory before the
array holds (0 here), and that frame is zeroed.  The cursor ends at -2, and
`pt_start` has wrapped to `0xFFFFFFFF`. -/
theorem backward_cursor_counterexample :
    (setup_guestos (demo_env 1) [] none 1 3221225472 0 world0).status = .ok ∧
    num_pt_pages 1 3221225472 = 2 ∧
    (get_pfn_list (demo_env 1) 1).2.length = 1 ∧
    (setup_guestos (demo_env 1) [] none 1 3221225472 0 world0).table_idx = [0, -1] ∧
    (setup_guestos (demo_env 1) [] none 1 3221225472 0 world0).alloc_index = -2 ∧
    pt_start 1 3221225472 = 4294967295 ∧
    (setup_guestos (demo_env 1) [] none 1 3221225472 0 world0).w.trace.take 2 = [Effect.zeroed 256, Effect.zeroed ((demo_env 1).stray (-1))] := by
  decide

/-- C4: in every run of `setup_guestos` that submits its request array, element
0 is the pin request of the page directory (`ptr` = address of the root frame
`page_array[tot_pages - 1]` or-ed with `PGREQ_EXTENDED_COMMAND`, `val =
PGEXT_PIN_L2_TABLE`); the page-directory request that installs a leaf table
stands at a strictly smaller position than the leaf-entry request of every
page `c` of that leaf table; and the leaf-entry requests stand in strictly
ascending order of `c`. -/
theorem request_ordering (env : Env) (kernel : List Nat) (initrd : Option (List Nat))
    (tot vla ksize : Nat) (w0 : World) (htot : tot < 2147483648)
    (h : submissions (setup_guestos env kernel initrd tot vla ksize w0).w.trace ≠
      submissions w0.trace) :
    (setup_guestos env kernel initrd tot vla ksize w0).updates[0]? =
      some ⟨.pin, ⟨shl_page (root_frame (page_at env (get_pfn_list env tot).2) tot) |||
        PGREQ_EXTENDED_COMMAND, PGEXT_PIN_L2_TABLE⟩⟩ ∧
    (0 < tot →
      (get_pfn_list env tot).2[tot - 1]? = some (root_frame (page_at env (get_pfn_list env tot).2) tot)) ∧
    (∀ (i j : Nat) (e1 e2 : Emitted) (c0 c : Nat),
      (setup_guestos env kernel initrd tot vla ksize w0).updates[i]? = some e1 →
      (setup_guestos env kernel initrd tot vla ksize w0).updates[j]? = some e2 →
      e1.site = .l2 c0 → e2.site = .l1 c →
      (l1_table_offset vla + c0) / 1024 = (l1_table_offset vla + c) / 1024 →
      i < j ∧ e1 = l2_req (page_at env (get_pfn_list env tot).2) tot vla c0 ∧
        e2 = l1_req (page_at env (get_pfn_list env tot).2) tot vla c ∧
        leaf_frame (page_at env (get_pfn_list env tot).2) tot vla c0 =
          leaf_frame (page_at env (get_pfn_list env tot).2) tot vla c) ∧
    (∀ (i j : Nat) (e1 e2 : Emitted) (c c2 : Nat),
      (setup_guestos env kernel initrd tot vla ksize w0).updates[i]? = some e1 →
      (setup_guestos env kernel initrd tot vla ksize w0).updates[j]? = some e2 →
      e1.site = .l1 c → e2.site = .l1 c2 → (i < j ↔ c < c2)) := by
  rcases setup_guestos_sent htot (rfl : setup_guestos env kernel initrd tot vla ksize w0 = _)
    with ⟨_, hs⟩ | ⟨g1, _, _, _, _, hg, _⟩
  · exact absurd hs h
  have hlen := get_pfn_list_full htot hg
  rw [g1]
  refine ⟨by simp [batch_upto, pin_req], ?_, ?_, ?_⟩
  · intro hpos
    unfold root_frame
    exact (page_at_int env (by omega) (by omega)).2
  · intro i j e1 e2 c0 c h1 h2 s1 s2 hj
    obtain ⟨hst, _, he1⟩ := site_l2_of_mem (List.mem_iff_getElem?.mpr ⟨i, h1⟩) s1
    obtain ⟨_, _, he2⟩ := site_l1_of_mem (List.mem_iff_getElem?.mpr ⟨j, h2⟩) s2
    have hle := leaf_start_le hst hj
    refine ⟨(batch_pos_lt_iff h1 h2).mpr ?_, he1, he2, ?_⟩
    · rw [s1, s2]; simp only [site_rank]; omega
    · unfold leaf_frame; rw [hj]
  · intro i j e1 e2 c c2 h1 h2 s1 s2
    rw [batch_pos_lt_iff h1 h2, s1, s2]
    simp only [site_rank]
    omega

/-- C4 at `tot_pages = 16`, `virt_load_addr = 0xC0000000`: the array is
submitted, and the leaf-entry request of page 3 (position 8) stands before
that of page 4 (position 10). -/
theorem request_ordering_witness :
    submissions (setup_guestos (demo_env 16) [1, 2, 3] none 16 3221225472 3 world0).w.trace ≠
      submissions world0.trace ∧
    ((8 : Nat) < 10 ↔ (3 : Nat) < 4) :=
  ⟨by decide,
   (request_ordering (demo_env 16) [1, 2, 3] none 16 3221225472 3 world0 (by decide)
      (by decide)).2.2.2 8 10
      (l1_req (page_at (demo_env 16) (get_pfn_list (demo_env 16) 16).2) 16 3221225472 3)
      (l1_req (page_at (demo_env 16) (get_pfn_list (demo_env 16) 16).2) 16 3221225472 4) 3 4
      (by decide) (by decide) rfl rfl⟩

/-- C5, amended: in a run of `setup_guestos` that returns 0 on a domain of at
least 8 and at most `2 ^ 20` frames, with a kernel and an optional ramdisk
that pass the size checks, the frame indices that received kernel or ramdisk
data are `0 .. ceil(ksize / PAGE_SIZE) + ceil(isize / PAGE_SIZE) - 1`; each is
strictly below every frame index the cursor took for a page table; all of
them are below `tot_pages`; and the cursor ends at or above the highest data
index. -/
theorem data_table_separation (env : Env) (kernel : List Nat) (initrd : Option (List Nat))
    (tot vla ksize : Nat) (w0 : World) (h8 : 8 ≤ tot) (htot : tot ≤ 1048576)
    (hks : ksize * 2 ≤ tot * PAGE_SIZE)
    (his : ∀ isize, initrd ≠ none → env.initrd_stat = some isize →
      (isize + ksize) * 2 ≤ tot * PAGE_SIZE)
    (h : (setup_guestos env kernel initrd tot vla ksize w0).status = .ok) :
    ∃ isz, ((initrd = none ∧ isz = 0) ∨ (initrd ≠ none ∧ env.initrd_stat = some isz)) ∧
      (setup_guestos env kernel initrd tot vla ksize w0).copies.map Prod.fst =
        List.range (chunk_count ksize + chunk_count isz) ∧
      (∀ d ∈ (setup_guestos env kernel initrd tot vla ksize w0).copies,
        ∀ t ∈ (setup_guestos env kernel initrd tot vla ksize w0).table_idx,
          ((d.1 : Nat) : Int) < t ∧ t < (tot : Int) ∧ d.1 < tot) ∧
      ((chunk_count ksize + chunk_count isz : Nat) : Int) - 1 ≤
        (setup_guestos env kernel initrd tot vla ksize w0).alloc_index := by
  obtain ⟨isz, hcase, hsz, hfst⟩ := setup_guestos_copies htot hks his h
  obtain ⟨_, _, g2, g3⟩ := setup_guestos_ok (by omega) rfl h
  rw [leaves_before_last] at g2 g3
  have hk := l1_table_offset_lt vla
  have hck : chunk_count ksize * 4096 ≤ ksize + 4095 := by
    unfold chunk_count PAGE_SIZE; omega
  have hci : chunk_count isz * 4096 ≤ isz + 4095 := by
    unfold chunk_count PAGE_SIZE; omega
  refine ⟨isz, hcase, hfst, ?_, ?_⟩
  · intro d hd t ht
    have hd1 : d.1 ∈ List.range (chunk_count ksize + chunk_count isz) := by
      rw [← hfst]; exact List.mem_map_of_mem _ hd
    rw [List.mem_range] at hd1
    rw [g3] at ht
    simp only [List.mem_map, List.mem_range] at ht
    obtain ⟨j, hj, rfl⟩ := ht
    refine ⟨?_, ?_, ?_⟩ <;> omega
  · rw [g2]; omega

/-- C5 on a domain of 16 frames with a three-byte kernel and a two-byte
ramdisk: data at indices 0 and 1, tables at 15 and 14. -/
theorem data_table_separation_witness :
    (setup_guestos (demo_env_rd 16 2) [1, 2, 3] (some [9, 9]) 16 3221225472 3 world0).status =
      .ok ∧
    3 * 2 ≤ 16 * PAGE_SIZE ∧
    ∃ isz, (((some [9, 9] : Option (List Nat)) = none ∧ isz = 0) ∨
        ((some [9, 9] : Option (List Nat)) ≠ none ∧
          (demo_env_rd 16 2).initrd_stat = some isz)) ∧
      (setup_guestos (demo_env_rd 16 2) [1, 2, 3] (some [9, 9]) 16 3221225472 3
        world0).copies.map Prod.fst = List.range (chunk_count 3 + chunk_count isz) :=
  ⟨by decide, by decide,
   (data_table_separation (demo_env_rd 16 2) [1, 2, 3] (some [9, 9]) 16 3221225472 3 world0
      (by decide) (by decide) (by decide)
      (fun isize _ hst => by
        have e : isize = 2 := (Option.some.inj hst).symm
        subst e
        decide)
      (by decide)).imp (fun _ hk => ⟨hk.1, hk.2.1⟩)⟩

/-- C5 as stated fails on a domain of 3 frames with a one-byte kernel and a
one-byte ramdisk: both size checks pass (`13 * 2 <= 3 * 4096` for the file of
13 bytes and `(1 + 1) * 2 <= 3 * 4096`), the run returns 0, the ramdisk was
copied to frame index 1, and the cursor then took index 1 for the leaf
table. -/
theorem data_table_separation_counterexample :
    (13 * 2 ≤ 3 * PAGE_SIZE ∧ (1 + 1) * 2 ≤ 3 * PAGE_SIZE) ∧
    (setup_guestos (demo_env_rd 3 1) [1] (some [9]) 3 3221225472 1 world0).status = .ok ∧
    (setup_guestos (demo_env_rd 3 1) [1] (some [9]) 3 3221225472 1 world0).copies =
      [(0, [1]), (1, [9])] ∧
    (setup_guestos (demo_env_rd 3 1) [1] (some [9]) 3 3221225472 1 world0).table_idx =
      [2, 1] := by
  decide

/-- C6 at `tot_pages = 16`, `virt_load_addr = 0xC0002000` (`l1_table_offset =
2`): the run returns 0 and the only leaf table is frame `page_array[14] =
270`; the request that installs it in the page directory carries `((270 <<
PAGE_SHIFT) + 2 * 4) | L2_PROT = 1106031`, which is not `(270 << PAGE_SHIFT) |
L2_PROT = 1106023`: bit 3, which is no flag of `L2_PROT`, is set. -/
theorem root_entry_value_unaligned :
    l1_table_offset 3221233664 = 2 ∧
    (setup_guestos (demo_env 16) [1, 2, 3] none 16 3221233664 3 world0).status = .ok ∧
    (setup_guestos (demo_env 16) [1, 2, 3] none 16 3221233664 3 world0).table_idx = [15, 14] ∧
    (get_pfn_list (demo_env 16) 16).2[14]? = some 270 ∧
    (setup_guestos (demo_env 16) [1, 2, 3] none 16 3221233664 3 world0).updates[1]? =
      some ⟨.l2 0, ⟨shl_page 271 + l2_table_offset 3221233664 * SIZEOF_L2_PGENTRY,
        (shl_page 270 + 2 * SIZEOF_L1_PGENTRY) ||| L2_PROT⟩⟩ ∧
    (shl_page 270 + 2 * SIZEOF_L1_PGENTRY) ||| L2_PROT = 1106031 ∧
    shl_page 270 ||| L2_PROT = 1106023 ∧
    Nat.testBit 1106031 3 = true ∧ Nat.testBit L2_PROT 3 = false := by
  decide

/-- C7, amended: for a kernel image whose size `fstat` reports as `size`
(below `2 ^ 30` bytes) and a domain of `tot_pages` frames (below `2 ^ 19`),
`read_kernel_header` as `main` calls it fails with the size error exactly
when `size * 2 > tot_pages * PAGE_SIZE`, where `size` is the length of the
whole file, header included; and in that case `main` exits with status 1
without calling `setup_guestos` and with the world unchanged: no guest frame
was mapped or written. -/
theorem kernel_size_check (max_cmd_len : Nat) (sys : Sys) (argv : List (List Char))
    (w0 : World) (file : List Nat) (size : Int) (tot : Nat)
    (hargs : ¬ argv.length < 4) (hdom : atoi (argv.getD 1 []) ≠ 0)
    (hfile : sys.kernel_file = some file) (htp : sys.tot_pages = some tot)
    (htot : tot < 524288) (hst : sys.kernel_stat = some size)
    (hs0 : 0 ≤ size) (hs1 : size < 1073741824) :
    (read_kernel_header sys.kernel_stat file (wrap_int (get_tot_pages sys * 4))
        sys.sig_old sys.addr_old = .error .too_large ↔
      size * 2 > ((tot * PAGE_SIZE : Nat) : Int)) ∧
    (size * 2 > ((tot * PAGE_SIZE : Nat) : Int) →
      (main max_cmd_len sys argv w0).code = 1 ∧
      (main max_cmd_len sys argv w0).w = w0 ∧
      (main max_cmd_len sys argv w0).run = none ∧
      (main max_cmd_len sys argv w0).header_error = some .too_large) := by
  have hg : get_tot_pages sys = (tot : Int) := by
    unfold get_tot_pages
    rw [htp]
    exact to_int_small (by omega)
  have hiff : read_kernel_header sys.kernel_stat file (wrap_int (get_tot_pages sys * 4))
        sys.sig_old sys.addr_old = .error .too_large ↔
      size * 2 > ((tot * PAGE_SIZE : Nat) : Int) := by
    rw [hst, read_kernel_header_too_large, hg,
      wrap_int_id (by omega : (-2147483648 : Int) ≤ (tot : Int) * 4) (by omega),
      wrap_int_id (by omega : (-2147483648 : Int) ≤ (tot : Int) * 4 * 1024) (by omega),
      wrap_int_id (by omega : (-2147483648 : Int) ≤ size * 2) (by omega)]
    unfold PAGE_SIZE
    push_cast
    constructor <;> intro h <;> omega
  refine ⟨hiff, fun h => ?_⟩
  have htp0 : ¬ get_tot_pages sys < 0 := by rw [hg]; omega
  rw [main_header_error hargs hdom htp0 hfile (hiff.mpr h)]
  exact ⟨rfl, rfl, rfl, rfl⟩

/-- C7 on the 15-byte image `demo_image` and a domain of 16 frames: `15 * 2`
is not above `16 * 4096`, and the header is not refused for its size. -/
theorem kernel_size_check_witness :
    ¬ ((15 : Int) * 2 > ((16 * PAGE_SIZE : Nat) : Int)) ∧
    ¬ read_kernel_header (demo_sys demo_image).kernel_stat demo_image
        (wrap_int (get_tot_pages (demo_sys demo_image) * 4))
        (demo_sys demo_image).sig_old (demo_sys demo_image).addr_old = .error .too_large :=
  ⟨by decide,
   fun h => absurd ((kernel_size_check 256 (demo_sys demo_image) demo_argv world0 demo_image
      15 16 (by decide) (by decide) rfl rfl (by decide) rfl (by decide) (by decide)).1.mp h)
      (by decide)⟩

/-- C7 as stated fails: an image of 8200 bytes has a payload of 8188 bytes,
and `8188 * 2 <= 4 * 4096`, yet for a domain of 4 frames `read_kernel_header`
returns the size error, because `8200 * 2 > 4 * 4096`. -/
theorem kernel_size_check_counterexample :
    (GUEST_SIG ++ [0, 0, 0, 192] ++ List.replicate 8188 0).length = 8200 ∧
    (8200 - (SIG_LEN + SIZEOF_ULONG)) * 2 ≤ 4 * PAGE_SIZE ∧
    read_kernel_header (some 8200) (GUEST_SIG ++ [0, 0, 0, 192] ++ List.replicate 8188 0)
      (wrap_int (to_int 4 * 4)) [] [] = .error .too_large :=
  ⟨by rw [List.length_append, List.length_append, List.length_replicate]; rfl, by decide, rfl⟩

/-- C8 on a domain of 16 frames whose first `mmap` fails: that `mmap` is the
one of `copy_to_domain_page` for the kernel page (frame 256); no byte of the
kernel reaches the frame, and `setup_guestos` still zeroes the two table
frames, submits the request array and returns 0. -/
theorem copy_map_failure_ignored :
    (setup_guestos (first_map_fails_env 16) [1, 2, 3] none 16 3221225472 3 world0).copies =
      [(0, [1, 2, 3])] ∧
    (get_pfn_list (first_map_fails_env 16) 16).2[0]? = some 256 ∧
    copy_to_domain_page (first_map_fails_env 16) world0 256 [1, 2, 3] =
      (-1, { trace := [Effect.map_failed 256], nmaps := 1 }) ∧
    (setup_guestos (first_map_fails_env 16) [1, 2, 3] none 16 3221225472 3 world0).w.trace.take 3 =
      [Effect.map_failed 256, Effect.zeroed 271, Effect.zeroed 270] ∧
    submissions
      (setup_guestos (first_map_fails_env 16) [1, 2, 3] none 16 3221225472 3 world0).w.trace = 1 ∧
    (setup_guestos (first_map_fails_env 16) [1, 2, 3] none 16 3221225472 3 world0).status =
      .ok := by
  decide

/-- C9 with `MAX_CMD_LEN = 256`: for the single boot parameter of 255
characters the test `cmd_len + strlen(argv[count]) > MAX_CMD_LEN - 1` is
false, the parameter and a blank are appended, and `main` hands a command
line of 256 characters, more than `MAX_CMD_LEN - 1`, to `DOM0_BUILDDOMAIN`
with no error reported.  For 100 parameters of three characters `cmd_len`
grows by `strlen(argv[count] + 1) = 2` for each four characters appended:
the command line has 400 characters and no error is reported. -/
theorem cmdline_cap_exceeded :
    (main 256 (demo_sys demo_image) (demo_argv ++ [List.replicate 255 'a']) world0).cmd.map
      (fun c => (c.line.length, c.cmd_len, c.reported)) = some (256, 254, false) ∧
    (main 256 (demo_sys demo_image) (demo_argv ++ [List.replicate 255 'a']) world0).w.trace.getLast? =
      some (Effect.build_domain (List.replicate 255 'a' ++ [' '])) ∧
    (main 256 (demo_sys demo_image) (demo_argv ++ [List.replicate 255 'a']) world0).code = 0 ∧
    (cmdline_loop 256 (List.replicate 100 ['a', 'b', 'c']) 0 []).line.length = 400 ∧
    (cmdline_loop 256 (List.replicate 100 ['a', 'b', 'c']) 0 []).cmd_len = 200 ∧
    (cmdline_loop 256 (List.replicate 100 ['a', 'b', 'c']) 0 []).reported = false := by
  decide!

/-- C10, amended: for `tot_pages` up to `2 ^ 20` and every load address,
`num_pt_pages` as `setup_guestos` computes it is
`(l1_table_offset(virt_load_addr) + tot_pages + 1024) / 1024 + 1`, which is
`ceil((l1_table_offset(virt_load_addr) + tot_pages + 1) / 1024)` leaf tables
plus one root table; it is at most the value of the specification's formula,
and `pt_start = tot_pages - num_pt_pages` whenever `num_pt_pages <=
tot_pages`. -/
theorem table_budget (tot vla : Nat) (htot : tot ≤ 1048576) :
    num_pt_pages tot vla =
      (((l1_table_offset vla + tot + 1024) / 1024 + 1 : Nat) : Int) ∧
    num_pt_pages tot vla =
      ((ceil_div (l1_table_offset vla + tot + 1) ENTRIES_PER_L1_PAGETABLE + 1 : Nat) : Int) ∧
    num_pt_pages tot vla ≤ ((spec_num_table_pages tot : Nat) : Int) ∧
    (num_pt_pages tot vla ≤ (tot : Int) →
      ((pt_start tot vla : Nat) : Int) = (tot : Int) - num_pt_pages tot vla) := by
  have hk := l1_table_offset_lt vla
  have hn := @num_pt_pages_eq tot vla (by omega)
  rw [hn]
  unfold spec_num_table_pages ceil_div ENTRIES_PER_L1_PAGETABLE
  refine ⟨?_, ?_, ?_, fun h => ?_⟩
  · congr 1; omega
  · congr 1; omega
  · have : (l1_table_offset vla + tot) / 1024 + 2 ≤
        (1024 - 1 + tot + 1 + (1024 - 1)) / 1024 + 1 := by omega
    exact_mod_cast this
  · have hb : (l1_table_offset vla + tot) / 1024 + 2 ≤ tot := by exact_mod_cast h
    rw [pt_start_eq vla (by omega) hb]
    omega

/-- C10 at `tot_pages = 16`, `virt_load_addr = 0xC0000000`: `num_pt_pages = 2`
and `pt_start = 14`. -/
theorem table_budget_witness :
    (16 : Nat) ≤ 1048576 ∧
    num_pt_pages 16 3221225472 =
      (((l1_table_offset 3221225472 + 16 + 1024) / 1024 + 1 : Nat) : Int) ∧
    num_pt_pages 16 3221225472 = 2 ∧ pt_start 16 3221225472 = 14 :=
  ⟨by decide, (table_budget 16 3221225472 (by decide)).1, by decide, by decide⟩

/-- C10 as stated fails at `tot_pages = 16`, `virt_load_addr = 0xC0000000`:
the specification's formula gives `ceil(1040 / 1024) + 1 = 3` table pages and
`pt_start = 13`, the code computes `num_pt_pages = 2` and `pt_start = 14`. -/
theorem table_budget_counterexample :
    spec_num_table_pages 16 = 3 ∧ num_pt_pages 16 3221225472 = 2 ∧
    num_pt_pages 16 3221225472 ≠ ((spec_num_table_pages 16 : Nat) : Int) ∧
    pt_start 16 3221225472 = 14 ∧ pt_start 16 3221225472 ≠ 16 - spec_num_table_pages 16 := by
  decide

end XiBuild
